import Mathlib

/-!
Verification of the elixa-api report-generation core.

Shallow embedding of the Python sources:
  * `app/core/utils.py`            — derived-metric calculator, batch merge
  * `app/core/constants.py`        — metric tables and API limits
  * `app/services/yandex_report_generators/selectors.py` — metric planner
  * `app/services/yandex_report_generators/base.py`      — header/row assembly,
    hierarchical fetch
  * `app/services/yandex_report_generators/{free,paid,direct}_report_generator.py`
  * `app/adapters/y_metrika/client.py` — batching client facade
  * `app/services/report_assembly/{collector,merger}.py`

Python floats are modelled as `ℚ`, Python ints as `ℤ`, dictionaries as
association lists, asynchronous calls as explicit oracle functions threaded
through the definitions (the gather in the hierarchical fetcher preserves
task order, so the sequential embedding is faithful to the assembled output).
-/

namespace Elixa

/-! ## Python string / numeric primitives -/

/-- Substring test on character lists: `pat` occurs inside `l`
(Python `pat in s`). -/
def listInfixOf (pat l : List Char) : Bool :=
  l.tails.any (fun t => pat.isPrefixOf t)

/-- Python `pat in s` for strings. -/
def strContains (s pat : String) : Bool :=
  listInfixOf pat.toList s.toList

/-- `s.lower()` as a character list (character-wise lowering; the metric
names this is applied to are ASCII). -/
def lowerChars (s : String) : List Char :=
  s.data.map Char.toLower

/-- `pat in s.lower()` for a lowercase pattern. -/
def strContainsLower (s pat : String) : Bool :=
  listInfixOf pat.data (lowerChars s)

/-- Python `int(x)` on a float: truncation toward zero. -/
def pyTruncInt (q : ℚ) : ℤ :=
  if q < 0 then -⌊-q⌋ else ⌊q⌋

/-- Python `round(x)` to an integer: nearest, ties to even. -/
def pyRoundInt (q : ℚ) : ℤ :=
  let f := ⌊q⌋
  let r := q - (f : ℚ)
  if r < 1/2 then f
  else if 1/2 < r then f + 1
  else if f % 2 = 0 then f else f + 1

/-- Python `round(x, 2)`: round to two decimal places. -/
def round2 (q : ℚ) : ℚ :=
  (pyRoundInt (q * 100) : ℚ) / 100

/-- Python `str.title()` restricted to alphabetic "cased" characters:
every alphabetic run starts uppercase, the rest of the run is lowered. -/
def pyTitleGo : Bool → List Char → List Char
  | _, [] => []
  | prevAlpha, c :: cs =>
    (if c.isAlpha then (if prevAlpha then c.toLower else c.toUpper) else c)
      :: pyTitleGo c.isAlpha cs

/-- Python `str.title()`. -/
def pyTitle (s : String) : String :=
  String.mk (pyTitleGo false s.toList)

/-- Python dict lookup on an association list (keys unique in all the
constant tables of `app/core/constants.py`). -/
def alookup (m : List (String × String)) (k : String) : Option String :=
  (m.find? (fun p => p.1 = k)).map Prod.snd

/-- `dict.values()` of an association list. -/
def avalues (m : List (String × String)) : List String :=
  m.map Prod.snd

/-- Index assignment of `{name: idx for idx, name in enumerate(l)}`:
for a duplicated name the later index wins, as in a Python dict
comprehension. -/
def dictIndexFrom (i : Nat) : List String → String → Option Nat
  | [], _ => none
  | x :: xs, m =>
    match dictIndexFrom (i + 1) xs m with
    | some j => some j
    | none => if x = m then some i else none

/-- `metric_index.get(m)` for `metric_index` built by enumeration. -/
def dictIndex (l : List String) (m : String) : Option Nat :=
  dictIndexFrom 0 l m

/-- Python `list.index` (first occurrence), partial in Python but only
called after a membership test in the source. -/
def firstIdxFrom (i : Nat) (m : String) : List String → Option Nat
  | [] => none
  | x :: xs => if x = m then some i else firstIdxFrom (i + 1) m xs

def firstIdx (l : List String) (m : String) : Option Nat :=
  firstIdxFrom 0 m l

/-! ## Derived metric calculator (`app/core/utils.py`) -/

def calculate_cpc (cost : ℚ) (clicks : ℤ) : ℚ :=
  if clicks = 0 then 0 else round2 (cost / (clicks : ℚ))

def calculate_cpa (cost : ℚ) (conversions : ℤ) : ℚ :=
  if conversions = 0 then 0 else round2 (cost / (conversions : ℚ))

def calculate_cpo (cost : ℚ) (orders : ℤ) : ℚ :=
  if orders = 0 then 0 else round2 (cost / (orders : ℚ))

def calculate_cr (conversions visits : ℤ) : ℚ :=
  if visits = 0 then 0 else round2 (((conversions : ℚ) / (visits : ℚ)) * 100)

def calculate_romi (revenue cost : ℚ) : ℚ :=
  if cost = 0 then 0 else round2 (((revenue - cost) / cost) * 100)

def calculate_roi (revenue cost : ℚ) : ℚ :=
  if cost = 0 then 0 else round2 ((revenue / cost) * 100)

def calculate_drr (cost revenue : ℚ) : ℚ :=
  if revenue = 0 then 0 else round2 ((cost / revenue) * 100)

def calculate_cac (cost : ℚ) (new_customers : ℤ) : ℚ :=
  if new_customers = 0 then 0 else round2 (cost / (new_customers : ℚ))

/-- `app/schemas/report.py` `CalculatedMetrics`: all fields optional,
defaulting to `None`. -/
structure CalculatedMetrics where
  cpc : Option ℚ := none
  cr : Option ℚ := none
  cpo : Option ℚ := none
  cpa : Option ℚ := none
  cac : Option ℚ := none
  romi : Option ℚ := none
  drr : Option ℚ := none
  roi : Option ℚ := none
  deriving Repr, DecidableEq

/-- `calculate_metrics` from `app/core/utils.py`. -/
def calculate_metrics (cost : ℚ) (clicks visits goal_achieved : ℤ)
    (revenue : ℚ) (selected_metrics : List String)
    (new_customers : Option ℤ) : CalculatedMetrics :=
  { cpc := if "cpc" ∈ selected_metrics ∧ 0 < clicks
      then some (calculate_cpc cost clicks) else none
    cr := if "cr" ∈ selected_metrics ∧ 0 < visits
      then some (calculate_cr goal_achieved visits) else none
    romi := if "romi" ∈ selected_metrics ∧ 0 < cost
      then some (calculate_romi revenue cost) else none
    roi := if "roi" ∈ selected_metrics ∧ 0 < cost
      then some (calculate_roi revenue cost) else none
    drr := if "drr" ∈ selected_metrics ∧ 0 < revenue
      then some (calculate_drr cost revenue) else none
    cac := match new_customers with
      | some n => if "cac" ∈ selected_metrics then some (calculate_cac cost n) else none
      | none => none
    cpa := if "cpa" ∈ selected_metrics ∧ 0 < goal_achieved
      then some (calculate_cpa cost goal_achieved) else none
    cpo := if "cpo" ∈ selected_metrics ∧ 0 < goal_achieved
      then some (calculate_cpo cost goal_achieved) else none }

/-- `getattr(metrics_result, metric, 0)` followed by `value or 0`. -/
def getattrOr0 (m : CalculatedMetrics) (key : String) : ℚ :=
  (if key = "cpc" then m.cpc
   else if key = "cr" then m.cr
   else if key = "cpo" then m.cpo
   else if key = "cpa" then m.cpa
   else if key = "cac" then m.cac
   else if key = "romi" then m.romi
   else if key = "drr" then m.drr
   else if key = "roi" then m.roi
   else none).getD 0

/-! ## Data model -/

/-- A tabular cell: Python rows mix the label string with numeric values. -/
inductive Cell where
  | str (s : String)
  | num (q : ℚ)
  deriving Repr, DecidableEq

/-- One row of a Metrika API response: `{"dimensions": [{"id", "name"}],
"metrics": [...]}` (single dimension per request in this engine). -/
structure DimItem where
  dimId : String
  dimName : String
  metrics : List ℚ
  deriving Repr, DecidableEq

/-- `MetrikaApiResponse` restricted to its `data` field (the only field the
report pipeline reads; `query` metadata is display-only). -/
structure MResponse where
  data : List DimItem
  deriving Repr, DecidableEq

/-- `ReportData` (headers + rows; `meta_data` is untouched by the claims
and always `[]` on the generator paths modelled here). -/
structure ReportData where
  headers : List String
  rows : List (List Cell)
  deriving Repr, DecidableEq

/-- The request-describing fields of `app/database/models/report.py`
`Report` that the generation pipeline reads. `goals` are (id, name) pairs. -/
structure Report where
  source : String
  date_1 : String
  date_2 : String
  goals : List (String × String)
  selected_metrics : List String
  selected_attributes : List String
  additional_metrics : Option String
  cpa_goal : Option String
  cpo_goal : Option String
  deriving Repr, DecidableEq

/-- The abstract-method slots of `BaseReportGenerator` that each traffic-kind
strategy fills in. -/
structure GenCfg where
  base_metrics : List String
  attributes_mapping : List (String × String)
  metric_names : List (String × String)
  traffic_type : String
  main_dimensions : List String
  detail_dimensions : List String
  main_header_name : String

/-! ## Constants (`app/core/constants.py`) -/

def MAX_METRICS_PER_REQUEST : Nat := 20

def BASE_ADDITIONAL_METRICS : List String :=
  ["cpc", "cr", "cpo", "cac", "romi", "drr", "roi"]

def PAID_METRICS : List String :=
  ["ym:ad:RUBConvertedAdCost", "ym:ad:ecommerceRUBConvertedRevenue"]

def FREE_METRICS : List String := []

def PAID_ATTRIBUTES_MAPPING : List (String × String) :=
  [("clicks", "ym:ad:clicks"),
   ("visits", "ym:ad:visits"),
   ("decline", "ym:ad:bounceRate"),
   ("timeonsite", "ym:ad:avgVisitDurationSeconds"),
   ("depthofview", "ym:ad:pageDepth")]

def FREE_ATTRIBUTES_MAPPING : List (String × String) :=
  [("visits", "ym:s:visits"),
   ("decline", "ym:s:bounceRate"),
   ("timeonsite", "ym:s:avgVisitDurationSeconds"),
   ("depthofview", "ym:s:pageDepth")]

def PAID_METRIC_NAMES : List (String × String) :=
  [("ym:ad:RUBConvertedAdCost", "Расходы"),
   ("ym:ad:clicks", "Клики"),
   ("ym:ad:visits", "Визиты"),
   ("ym:ad:ecommerceRUBConvertedRevenue", "Выручка"),
   ("cpc", "CPC, ₽"),
   ("cr", "CR, %"),
   ("cpo", "CPO, ₽"),
   ("cpa", "CPA, ₽"),
   ("cac", "CAC, ₽"),
   ("romi", "ROMI, %"),
   ("drr", "ДРР, %"),
   ("roi", "ROI, %"),
   ("ym:ad:bounceRate", "Отказы, %"),
   ("ym:ad:avgVisitDurationSeconds", "Время на сайте, сек"),
   ("ym:ad:pageDepth", "Глубина просмотра")]

def FREE_METRIC_NAMES : List (String × String) :=
  [("ym:s:visits", "Визиты"),
   ("ym:s:ecommerceRUBConvertedRevenue", "Выручка"),
   ("cpc", "CPC, ₽"),
   ("cr", "CR, %"),
   ("cpo", "CPO, ₽"),
   ("cpa", "CPA, ₽"),
   ("cac", "CAC, ₽"),
   ("romi", "ROMI, %"),
   ("drr", "ДРР, %"),
   ("roi", "ROI, %"),
   ("ym:s:bounceRate", "Отказы, %"),
   ("ym:s:avgVisitDurationSeconds", "Время на сайте, сек"),
   ("ym:s:pageDepth", "Глубина просмотра")]

def DIRECT_METRIC_NAMES : List (String × String) :=
  [("ym:ad:RUBConvertedAdCost", "Расходы"),
   ("ym:ad:clicks", "Клики"),
   ("ym:ad:visits", "Визиты"),
   ("ym:ad:ecommerceRUBConvertedRevenue", "Выручка"),
   ("cpc", "CPC, ₽"),
   ("cpa", "CPA, ₽"),
   ("cr", "CR, %"),
   ("cpo", "CPO, ₽"),
   ("cac", "CAC, ₽"),
   ("romi", "ROMI, %"),
   ("drr", "ДРР, %"),
   ("roi", "ROI, %"),
   ("ym:ad:bounceRate", "Отказы, %"),
   ("ym:ad:avgVisitDurationSeconds", "Время на сайте"),
   ("ym:ad:pageDepth", "Глубина просмотра")]

/-- `FreeReportGenerator` configuration (`free_report_generator.py`). -/
def cfgFree : GenCfg :=
  { base_metrics := FREE_METRICS
    attributes_mapping := FREE_ATTRIBUTES_MAPPING
    metric_names := FREE_METRIC_NAMES
    traffic_type := "free"
    main_dimensions := ["ym:s:lastSignTrafficSource"]
    detail_dimensions := ["ym:s:lastSignSourceEngine"]
    main_header_name := "Источник трафика" }

/-- `PaidReportGenerator` configuration (`paid_report_generator.py`). -/
def cfgPaid : GenCfg :=
  { base_metrics := PAID_METRICS
    attributes_mapping := PAID_ATTRIBUTES_MAPPING
    metric_names := PAID_METRIC_NAMES
    traffic_type := "paid"
    main_dimensions := ["ym:ad:CROSS_DEVICE_LAST_SIGNIFICANTDirectPlatformType"]
    detail_dimensions := []
    main_header_name := "Тип платформы" }

/-- `DirectReportGenerator` configuration with the default attribution
(`direct_report_generator.py`). -/
def cfgDirect : GenCfg :=
  { base_metrics := PAID_METRICS
    attributes_mapping := PAID_ATTRIBUTES_MAPPING
    metric_names := DIRECT_METRIC_NAMES
    traffic_type := "paid"
    main_dimensions := ["ym:ad:CROSS_DEVICE_LAST_SIGNIFICANTDirectOrder"]
    detail_dimensions := ["ym:ad:CROSS_DEVICE_LAST_SIGNIFICANTDirectBannerGroup"]
    main_header_name := "Рекламная кампания/Группа объявлений" }

/-! ## Metric query planner (`selectors.py`) -/

/-- `dedup_keep_order`: `list(dict.fromkeys(items))` keeps the first
occurrence of each element, in order. -/
def dedup_keep_order (items : List String) : List String :=
  items.foldl (fun acc x => if x ∈ acc then acc else acc ++ [x]) []

/-- `build_selected_metrics`: base metrics, then goal metrics, then
attribute-mapped metrics, deduplicated keeping first occurrences. -/
def build_selected_metrics (base_metrics goal_metrics : List String)
    (selected_attributes : List String)
    (attributes_mapping : List (String × String)) : List String :=
  dedup_keep_order
    (base_metrics ++ goal_metrics ++
      selected_attributes.filterMap (fun attr => alookup attributes_mapping attr))

/-! ## Base generator row/header assembly (`base.py`) -/

/-- The classification test of `_get_metric_value`'s `elif` chain for one
metric type tag. -/
def metricTypeMatches (t : String) (name : String) : Bool :=
  if t = "cost" then
    strContainsLower name "cost" || strContains name "RUBConvertedAdCost"
  else if t = "clicks" then strContainsLower name "clicks"
  else if t = "visits" then strContainsLower name "visits"
  else if t = "revenue" then
    strContainsLower name "revenue"
      || strContains name "ecommerceRUBConvertedRevenue"
  else if t = "goal" then
    strContainsLower name "goal" && strContainsLower name "visits"
  else false

/-- `_get_metric_value`: sum, over the positions of `selected_metrics` that
are in range of `metrics_data`, of the values whose metric name matches the
requested type. -/
def get_metric_value (metrics_data : List ℚ) (selected_metrics : List String)
    (metric_type : String) : ℚ :=
  selected_metrics.enum.foldl
    (fun acc p =>
      if p.1 < metrics_data.length ∧ metricTypeMatches metric_type p.2 then
        acc + metrics_data.getD p.1 0
      else acc) 0

/-- The CPA/CPO goal-achievement extraction inside
`_calculate_user_selected_metrics`. -/
def goalAchievedFor (cfg : GenCfg) (metrics_data : List ℚ)
    (selected_metrics : List String) (report : Report) : ℚ :=
  let goalValue (gid : String) : Option ℚ :=
    let metric :=
      if cfg.traffic_type = "paid" then "ym:ad:goal" ++ gid ++ "visits"
      else "ym:s:goal" ++ gid ++ "visits"
    if metric ∈ selected_metrics then
      match firstIdx selected_metrics metric with
      | some idx =>
        if idx < metrics_data.length then some (metrics_data.getD idx 0)
        else none
      | none => none
    else none
  let g1 : ℚ :=
    match report.cpa_goal with
    | some gid =>
      if "cpa" ∈ report.selected_metrics ∧ gid ≠ "" then
        (goalValue gid).getD 0
      else 0
    | none => 0
  let g2 : ℚ :=
    match report.cpo_goal with
    | some gid =>
      if "cpo" ∈ report.selected_metrics ∧ gid ≠ "" then
        match goalValue gid with
        | some v => max g1 v
        | none => g1
      else g1
    | none => g1
  if g2 = 0 then get_metric_value metrics_data selected_metrics "goal" else g2

/-- `_calculate_user_selected_metrics`. -/
def calculate_user_selected_metrics (cfg : GenCfg) (metrics_data : List ℚ)
    (selected_metrics : List String) (report : Report) : List ℚ :=
  if report.selected_metrics = [] then []
  else
    let cost := get_metric_value metrics_data selected_metrics "cost"
    let clicks := get_metric_value metrics_data selected_metrics "clicks"
    let visits := get_metric_value metrics_data selected_metrics "visits"
    let revenue := get_metric_value metrics_data selected_metrics "revenue"
    let goal_achieved := goalAchievedFor cfg metrics_data selected_metrics report
    let res := calculate_metrics cost (pyTruncInt clicks) (pyTruncInt visits)
      (pyTruncInt goal_achieved) revenue report.selected_metrics none
    report.selected_metrics.map (fun m => getattrOr0 res m)

/-- `_calculate_additional_metrics`. -/
def calculate_additional_metrics (metrics_data : List ℚ)
    (selected_metrics additional_metrics : List String) : List ℚ :=
  let cost := get_metric_value metrics_data selected_metrics "cost"
  let clicks := get_metric_value metrics_data selected_metrics "clicks"
  let visits := get_metric_value metrics_data selected_metrics "visits"
  let revenue := get_metric_value metrics_data selected_metrics "revenue"
  let goal_achieved := get_metric_value metrics_data selected_metrics "goal"
  let res := calculate_metrics cost (pyTruncInt clicks) (pyTruncInt visits)
    (pyTruncInt goal_achieved) revenue additional_metrics none
  additional_metrics.map (fun m => getattrOr0 res m)

/-- `report.additional_metrics.split(",") if report.additional_metrics
else []` (the empty string is falsy in Python). -/
def additionalSplit (s : Option String) : List String :=
  match s with
  | none => []
  | some str => if str = "" then [] else str.splitOn ","

/-- The additional-metric list as filtered inside `_build_data_row`:
stripped, non-empty, not already user-selected. -/
def additionalForRow (report : Report) : List String :=
  (((additionalSplit report.additional_metrics).map String.trim).filter
      (fun m => m ≠ "")).filter (fun m => m ∉ report.selected_metrics)

/-- Metric-value lookup used by `_build_data_row`:
`metrics_data[idx] if idx is not None and idx < len(metrics_data) else 0`. -/
def rowValueAt (metrics_data : List ℚ) (idx : Option Nat) : ℚ :=
  match idx with
  | some i => if i < metrics_data.length then metrics_data.getD i 0 else 0
  | none => 0

/-- `_build_data_row`: label, attribute values, non-attribute metric values,
user-selected derived metrics, additional derived metrics. The unused
`is_main` flag of the source is omitted. -/
def build_data_row (cfg : GenCfg) (name : String) (metrics_data : List ℚ)
    (selected_metrics : List String) (report : Report) : List Cell :=
  let attrCells := report.selected_attributes.flatMap (fun attr =>
    match alookup cfg.attributes_mapping attr with
    | some key =>
      [Cell.num (rowValueAt metrics_data (dictIndex selected_metrics key))]
    | none => [])
  let attrValues := avalues cfg.attributes_mapping
  let baseCells := selected_metrics.flatMap (fun m =>
    if m ∈ attrValues then []
    else [Cell.num (rowValueAt metrics_data (dictIndex selected_metrics m))])
  let derivedCells :=
    if report.selected_metrics ≠ [] ∧ 0 < metrics_data.length then
      (calculate_user_selected_metrics cfg metrics_data selected_metrics
        report).map Cell.num
    else []
  let addl := additionalForRow report
  let addlCells :=
    if addl ≠ [] ∧ 0 < metrics_data.length then
      (calculate_additional_metrics metrics_data selected_metrics addl).map
        Cell.num
    else []
  Cell.str name :: (attrCells ++ baseCells ++ derivedCells ++ addlCells)

/-- `_build_main_headers`. -/
def build_main_headers (cfg : GenCfg) (selected_metrics : List String)
    (goal_names : List (String × String)) (report : Report) : List String :=
  let attrHeaders := report.selected_attributes.flatMap (fun attr =>
    match alookup cfg.attributes_mapping attr with
    | some key =>
      [match alookup cfg.metric_names key with
       | some n => n
       | none => pyTitle attr]
    | none => [])
  let metricHeaders := selected_metrics.flatMap (fun m =>
    match alookup goal_names m with
    | some n => [n]
    | none =>
      match alookup cfg.metric_names m with
      | some n => [n]
      | none => if m ∈ avalues cfg.attributes_mapping then [] else [m])
  let derivedHeaders := report.selected_metrics.map (fun m =>
    match alookup cfg.metric_names m with
    | some n => n
    | none => m.toUpper)
  let addlHeaders := (additionalSplit report.additional_metrics).flatMap
    (fun m0 =>
      let m := m0.trim
      if m ∈ BASE_ADDITIONAL_METRICS ∧ m ∉ report.selected_metrics then
        [match alookup cfg.metric_names m with
         | some n => n
         | none => m.toUpper]
      else [])
  cfg.main_header_name ::
    (attrHeaders ++ metricHeaders ++ derivedHeaders ++ addlHeaders)

/-! ## Hierarchical fetcher (`base.py _process_hierarchical_data`)

The two provider calls are passed as oracles: `mainFetch` is the result of
the main-level request, `detailFetch main_id` the result of the detail
request for one main key. `asyncio.gather` returns results in task order,
so the sequential embedding lists detail responses in main-row order. -/

def process_hierarchical_data (cfg : GenCfg) (report : Report)
    (selected_metrics : List String) (goal_names : List (String × String))
    (mainFetch : Option MResponse)
    (detailFetch : String → Option MResponse) :
    List String × List (List Cell) :=
  let headers := build_main_headers cfg selected_metrics goal_names report
  match mainFetch with
  | none => (headers, [])
  | some md =>
    if md.data = [] then (headers, [])
    else
      let mainRows := md.data.map (fun it =>
        build_data_row cfg it.dimName it.metrics selected_metrics report)
      let detailsResults : List (Option MResponse) :=
        if cfg.detail_dimensions = [] then []
        else md.data.map (fun it => detailFetch it.dimId)
      let detailRows := detailsResults.flatMap (fun od =>
        match od with
        | some dd =>
          dd.data.map (fun it =>
            build_data_row cfg ("  " ++ it.dimName) it.metrics
              selected_metrics report)
        | none => [])
      (headers, mainRows ++ detailRows)

/-! ## Goal metrics (`client.py get_goal_metrics`, pure) -/

def get_goal_names (goals : List (String × String)) : List (String × String) :=
  goals.map (fun g =>
    ("ym:ad:goal" ++ g.1 ++ "users", "Конверсии (" ++ g.2 ++ ")"))

def get_goal_metrics (goals : List (String × String)) (traffic_type : String) :
    List String × List (String × String) :=
  let tag := if traffic_type = "paid" then "ym:ad:goal" else "ym:s:goal"
  let metrics := goals.flatMap (fun g =>
    [tag ++ g.1 ++ "visits", tag ++ g.1 ++ "conversionRate"])
  let names := goals.flatMap (fun g =>
    [(tag ++ g.1 ++ "visits", "Достижения цели " ++ g.2),
     (tag ++ g.1 ++ "conversionRate", "Конверсия в цель " ++ g.2 ++ ", %")])
  (metrics, names ++ get_goal_names goals)

/-! ## Free generator (`free_report_generator.py`) -/

/-- `FreeReportGenerator.generate_report` with the network calls oracled.
No statement in the body raises once the oracles are values, so the
`except` branch returning `None` is unreachable and the function always
returns the assembled `ReportData` — even with zero rows. -/
def freeGenerateReport (report : Report)
    (mainFetch : Option MResponse)
    (detailFetch : String → Option MResponse) : Option ReportData :=
  let gm := get_goal_metrics report.goals cfgFree.traffic_type
  let selected := build_selected_metrics FREE_METRICS gm.1
    report.selected_attributes FREE_ATTRIBUTES_MAPPING
  let hr := process_hierarchical_data cfgFree report selected gm.2
    mainFetch detailFetch
  some { headers := hr.1, rows := hr.2 }

/-! ## Paid generator (`paid_report_generator.py`) -/

/-- The `BaseData` dictionary of `_extract_base_data_from_row`. -/
structure BaseData where
  cost : ℚ
  clicks : ℚ
  visits : ℚ
  revenue : ℚ
  goal : ℚ
  deriving Repr, DecidableEq

/-- One step of `_extract_base_data_from_row`'s classification chain. -/
def extractStep (bd : BaseData) (metric : String) (v : ℚ) : BaseData :=
  if strContainsLower metric "cost"
      || strContains metric "RUBConvertedAdCost" then
    { bd with cost := bd.cost + v }
  else if strContainsLower metric "clicks" then
    { bd with clicks := bd.clicks + v }
  else if strContainsLower metric "visits"
      && !(strContainsLower metric "goal") then
    { bd with visits := bd.visits + v }
  else if strContainsLower metric "revenue"
      || strContains metric "ecommerceRUBConvertedRevenue" then
    { bd with revenue := bd.revenue + v }
  else if strContainsLower metric "goal"
      && strContainsLower metric "visits" then
    { bd with goal := bd.goal + v }
  else bd

/-- `_extract_base_data_from_row`: walk `selected_metrics` against row
columns starting after the label and the attribute columns; non-numeric or
out-of-range cells are skipped. -/
def extract_base_data_from_row (row : List Cell)
    (selected_metrics : List String) (report : Report) : BaseData :=
  let start := 1 + report.selected_attributes.length
  (selected_metrics.enum.foldl
    (fun bd p =>
      let colIdx := start + p.1
      if colIdx < row.length then
        match row.getD colIdx (Cell.num 0) with
        | Cell.num v => extractStep bd p.2 v
        | Cell.str _ => bd
      else bd)
    { cost := 0, clicks := 0, visits := 0, revenue := 0, goal := 0 })

/-- `_calculate_metrics_from_base_data`. -/
def calculate_metrics_from_base_data (bd : BaseData) (report : Report) :
    List ℚ :=
  if report.selected_metrics = [] then []
  else
    let res := calculate_metrics bd.cost (pyTruncInt bd.clicks)
      (pyTruncInt bd.visits) (pyTruncInt bd.goal) bd.revenue
      report.selected_metrics none
    report.selected_metrics.map (fun m => getattrOr0 res m)

/-- Summing one data row into the running total
(`total_row[i] += row[i]` for numeric cells, label cell untouched).
`none` models the `IndexError` raised when a later row is longer than the
total row, which the generator's `except` turns into a failed generation. -/
def addRowInto (total row : List Cell) : Option (List Cell) :=
  if row.length ≤ total.length then
    some (match total, row with
      | [], _ => []
      | t0 :: ts, [] => t0 :: ts
      | t0 :: ts, _ :: rs =>
        t0 :: List.zipWith
          (fun t r => match r with
            | Cell.num b => match t with
              | Cell.num a => Cell.num (a + b)
              | Cell.str s => Cell.str s
            | Cell.str _ => t)
          ts rs ++ ts.drop rs.length)
  else none

/-- The fresh total row: `[0] * len(row)` with the label written into
position zero. -/
def initTotalRow (row : List Cell) : List Cell :=
  match row with
  | [] => []
  | _ :: rest => Cell.str "  Яндекс.Директ" :: rest.map (fun _ => Cell.num 0)

/-- The per-platform loop of `PaidReportGenerator.generate_report`
(lines building `rows` and `total_row`); returns the summed total row, or
`none` for the `IndexError` path. The fold state starts at `none` exactly
as `total_row = None` does. -/
def paidTotalRowGo (total : List Cell) : List (List Cell) → Option (List Cell)
  | [] => some total
  | row :: rest =>
    match addRowInto total row with
    | none => none
    | some t => paidTotalRowGo t rest

def paidTotalRow (rows : List (List Cell)) : Option (Option (List Cell)) :=
  match rows with
  | [] => some none
  | row :: rest =>
    match addRowInto (initTotalRow row) row with
    | none => none
    | some t => (paidTotalRowGo t rest).map some

/-- The recompute-and-replace block for the summed row
(`paid_report_generator.py` lines 136-161). -/
def paidRecompute (total : List Cell) (selected_metrics : List String)
    (report : Report) : List Cell :=
  if report.selected_metrics ≠ [] ∧ 1 < total.length then
    let bd := extract_base_data_from_row total selected_metrics report
    let calculated := calculate_metrics_from_base_data bd report
    if calculated ≠ [] then
      let start := 1 + selected_metrics.length +
        report.selected_attributes.length
      calculated.enum.foldl
        (fun t p =>
          if start + p.1 < t.length then
            t.set (start + p.1) (Cell.num (round2 p.2))
          else t)
        total
    else total
  else total

/-- The data-processing tail of `PaidReportGenerator.generate_report` once
the main fetch returned non-empty data: build per-platform rows, collapse
them into the single recomputed total row. `none` is the exception path. -/
def paidCollapse (items : List DimItem) (selected_metrics : List String)
    (report : Report) : Option (List (List Cell)) :=
  let rows := items.map (fun it =>
    build_data_row cfgPaid it.dimName it.metrics selected_metrics report)
  match paidTotalRow rows with
  | none => none
  | some none => some rows
  | some (some total) =>
    if total ≠ [] then some [paidRecompute total selected_metrics report]
    else some rows

/-- `PaidReportGenerator.generate_report` with oracles: `clients` is the
parsed chief-login list (`none` models a failed/shape-mismatched clients
response), `mainFetch` the platform-type request's result. -/
def paidGenerateReport (report : Report)
    (clients : Option (List (Option String)))
    (mainFetch : Option MResponse) : Option ReportData :=
  match clients with
  | none => none
  | some cs =>
    let logins := cs.filterMap id
    if logins = [] then none
    else
      let gm := get_goal_metrics report.goals cfgPaid.traffic_type
      let selected := build_selected_metrics PAID_METRICS gm.1
        report.selected_attributes PAID_ATTRIBUTES_MAPPING
      let headers := build_main_headers cfgPaid selected gm.2 report
      match mainFetch with
      | none => none
      | some pd =>
        if pd.data = [] then none
        else
          match paidCollapse pd.data selected report with
          | none => none
          | some rows => some { headers := headers, rows := rows }

/-! ## Direct generator (`direct_report_generator.py`) -/

/-- `_format_row_values_simple`: round float cells after the label.
In this embedding every numeric cell is a rational, matching the
`isinstance(value, float)` branch for values arriving from the API as
floats. -/
def format_row_values_simple (row : List Cell) : List Cell :=
  match row with
  | [] => []
  | c0 :: rest =>
    c0 :: rest.map (fun c => match c with
      | Cell.num q => Cell.num (round2 q)
      | Cell.str s => Cell.str s)

/-- `DirectReportGenerator.generate_report` with oracles (interleaves
detail rows directly under each order row, unlike the base hierarchical
fetcher). -/
def directGenerateReport (report : Report)
    (clients : Option (List (Option String)))
    (mainFetch : Option MResponse)
    (detailFetch : String → Option MResponse) : Option ReportData :=
  match clients with
  | none => none
  | some cs =>
    let logins := cs.filterMap id
    if logins = [] then none
    else
      let gm := get_goal_metrics report.goals cfgDirect.traffic_type
      let selected := build_selected_metrics PAID_METRICS gm.1
        report.selected_attributes PAID_ATTRIBUTES_MAPPING
      let headers := build_main_headers cfgDirect selected gm.2 report
      match mainFetch with
      | none => none
      | some od =>
        if od.data = [] then none
        else
          let rows := od.data.flatMap (fun order =>
            let orderRow := format_row_values_simple
              (build_data_row cfgDirect order.dimName order.metrics selected
                report)
            let groupRows := match detailFetch order.dimId with
              | some gd =>
                gd.data.map (fun g => format_row_values_simple
                  (build_data_row cfgDirect ("  " ++ g.dimName) g.metrics
                    selected report))
              | none => []
            orderRow :: groupRows)
          some { headers := headers, rows := rows }

/-! ## Batching client facade (`client.py`, `utils.py merge_metric_batches`)

A single provider request is an oracle `req : List String → Option MResponse`
(`None` models both the post-retry timeout failure and a non-200 response). -/

/-- Fuel-indexed chunking: each step takes one slice of `n` elements and
recurses on the rest. The fuel is an upper bound on the number of slices;
`chunksOf` always calls it with the list's length, which suffices since
every step consumes at least one element. -/
def chunksOfFuel {α : Type} (n : Nat) : Nat → List α → List (List α)
  | _, [] => []
  | 0, l => [l]
  | fuel + 1, x :: xs =>
    (x :: xs.take (n - 1)) :: chunksOfFuel n fuel (xs.drop (n - 1))

/-- The slicing `metrics[i : i + MAX] for i in range(0, len(metrics), MAX)`
(polymorphic so that the per-row metric values can be sliced along the
same boundaries in specifications). -/
def chunksOf {α : Type} (n : Nat) (l : List α) : List (List α) :=
  chunksOfFuel n l.length l

/-- The keep-filter applied to every non-first batch response in
`_batch_requests` (`if batch_response and batch_response.data`). -/
def keepDataBatch (req : List String → Option MResponse)
    (b : List String) : Option MResponse :=
  match req b with
  | none => none
  | some r => if r.data = [] then none else some r

/-- One iteration of the merge loop in `merge_metric_batches`: a falsy or
`data`-less batch is skipped, a batch with a different row count is skipped,
otherwise every base row is extended with the batch row's metrics. -/
def mergeOneBatch (base : MResponse) (batch : Option MResponse) : MResponse :=
  match batch with
  | none => base
  | some b =>
    if base.data.length ≠ b.data.length then base
    else
      { data := List.zipWith
          (fun it bit => { it with metrics := it.metrics ++ bit.metrics })
          base.data b.data }

/-- `merge_metric_batches`. -/
def merge_metric_batches (base : MResponse)
    (batch_results : List (Option MResponse)) : MResponse :=
  batch_results.foldl mergeOneBatch base

/-- `_batch_requests`: first chunk establishes the row identity and must
succeed with data; later chunks are requested, kept only when they succeed
with data, and merged. -/
def batchRequests (req : List String → Option MResponse)
    (metrics : List String) : Option MResponse :=
  match chunksOf MAX_METRICS_PER_REQUEST metrics with
  | [] => none
  | b0 :: rest =>
    match req b0 with
    | none => none
    | some r0 =>
      if r0.data = [] then none
      else
        let batch_results := rest.filterMap (keepDataBatch req)
        some (merge_metric_batches r0 (batch_results.map some))

/-- `get_metrika_data`: single request at or below the metric cap, batched
above it. -/
def getMetrikaData (req : List String → Option MResponse)
    (metrics : List String) : Option MResponse :=
  if metrics.length ≤ MAX_METRICS_PER_REQUEST then req metrics
  else batchRequests req metrics

/-! ## Multi-provider collector (`collector.py`) -/

/-- One entry of `sources`: a dict possibly lacking the keys, read through
`spec.get(key, default)`. -/
structure SourceSpec where
  provider : Option String
  traffic_kind : Option String
  deriving Repr, DecidableEq

/-- A report as the collector sees it: the traffic-kind field it mutates
plus every other field, abstracted as `rest`. -/
structure CReport (α : Type) where
  source : String
  rest : α
  deriving Repr, DecidableEq

/-- Everything that can come out of the `try` body of `run_one` after the
traffic-kind override: provider resolution and generation are oracled.
`Except.error` models an exception escaping the body. -/
def runOne (spec : SourceSpec) (hasYandexIntegration : Bool)
    (generation : String → Except Unit (Option ReportData))
    {α : Type} (report : CReport α) :
    CReport α × Except Unit (Option (String × ReportData)) :=
  let provider_slug := spec.provider.getD "yandex_metrika"
  let traffic_kind := spec.traffic_kind.getD "all"
  let previous_source := report.source
  let overridden : CReport α := { report with source := traffic_kind }
  let body : Except Unit (Option (String × ReportData)) :=
    if provider_slug = "yandex_metrika" then
      if ¬hasYandexIntegration then Except.ok none
      else
        match generation provider_slug with
        | Except.error e => Except.error e
        | Except.ok none => Except.ok none
        | Except.ok (some data) => Except.ok (some (provider_slug, data))
    else if provider_slug = "google_analytics" then
      match generation provider_slug with
      | Except.error e => Except.error e
      | Except.ok none => Except.ok none
      | Except.ok (some data) => Except.ok (some (provider_slug, data))
    else Except.ok none
  ({ overridden with source := previous_source }, body)

/-- The `asyncio.gather(*tasks)` stage of `collect_reports`, sequentially:
run each source's branch in order, threading the shared report through
`runOne`; an exception escaping a branch propagates out of the gather
(`Except.error`), otherwise the per-branch `Optional` results are
collected in source order. -/
def gatherResults {α : Type} (hasYandexIntegration : Bool)
    (generation : String → Except Unit (Option ReportData)) :
    CReport α → List SourceSpec →
    CReport α × Except Unit (List (Option (String × ReportData)))
  | report, [] => (report, Except.ok [])
  | report, spec :: rest =>
    let r := runOne spec hasYandexIntegration generation report
    match r.2 with
    | Except.error e => (r.1, Except.error e)
    | Except.ok item =>
      let tail := gatherResults hasYandexIntegration generation r.1 rest
      (tail.1,
        match tail.2 with
        | Except.error e => Except.error e
        | Except.ok items => Except.ok (item :: items))

/-- `collect_reports`: empty `sources` short-circuits to `[]`; otherwise
gather every branch and keep the non-`None` results, in source order (the
final list comprehension). The first component is the shared report after
the run. -/
def collect_reports {α : Type} (report : CReport α)
    (specs : List SourceSpec) (hasYandexIntegration : Bool)
    (generation : String → Except Unit (Option ReportData)) :
    CReport α × Except Unit (List (String × ReportData)) :=
  if specs = [] then (report, Except.ok [])
  else
    let g := gatherResults hasYandexIntegration generation report specs
    (g.1,
      match g.2 with
      | Except.error e => Except.error e
      | Except.ok results => Except.ok (results.filterMap id))

/-! ## Union merger (`merger.py`) -/

/-- `union_merge` (the `meta_data` lines are not modelled). -/
def union_merge (results : List (String × ReportData)) : ReportData :=
  match results with
  | [] => { headers := [], rows := [] }
  | (_, first) :: _ =>
    { headers := "Провайдер" :: first.headers
      rows := results.flatMap (fun pr =>
        pr.2.rows.map (fun row => Cell.str pr.1 :: row)) }

/-- The multi-provider branch of
`ReportService._generate_report_data` (taken when a sources list is
passed): collect, return `None` when the collection raised (the enclosing
`try`/`except`) or came back empty (`if not collected: return None`),
otherwise merge. -/
def generate_report_data {α : Type} (report : CReport α)
    (specs : List SourceSpec) (hasYandexIntegration : Bool)
    (generation : String → Except Unit (Option ReportData)) :
    Option ReportData :=
  match (collect_reports report specs hasYandexIntegration generation).2 with
  | Except.error _ => none
  | Except.ok collected =>
    if collected = [] then none
    else some (union_merge collected)

/-! ## Specification-side helper definitions

These definitions are used only to state properties of the embedded code,
not to re-implement it. -/

/-- Decorate a list of response rows with given metric-value columns. -/
def withCols (rows : List DimItem) (cols : List (List ℚ)) : List DimItem :=
  List.zipWith (fun it c => { it with metrics := c }) rows cols

/-- The ideal response for chunk `k` of a batched fetch whose full ground
truth is `rows`: every row carries the `k`-th slice of its metric values,
sliced along the metric-chunk boundaries. -/
def chunkResp (rows : List DimItem) (k : Nat) : MResponse :=
  { data := rows.map (fun it =>
      { it with
        metrics := (chunksOf MAX_METRICS_PER_REQUEST it.metrics).getD k [] }) }

/-- A failing non-first batch outcome: request failure, empty data, or a
row count different from the base batch's. -/
def isBadBatch (res : Option MResponse) (rows : List DimItem) : Bool :=
  match res with
  | none => true
  | some r => r.data.isEmpty || decide (r.data.length ≠ rows.length)

/-- Concatenation, for one row's full metric-value list `v`, of the chunk
slices surviving a set of failed batch indices. -/
def goodChunksJoin (bad : Nat → Bool) (ks : List Nat) (v : List ℚ) : List ℚ :=
  ((ks.filter (fun k => !bad k)).map
    (fun k => (chunksOf MAX_METRICS_PER_REQUEST v).getD k [])).flatten

/-- A label-headed all-numeric row. -/
def numRow (lbl : String) (v : List ℚ) : List Cell :=
  Cell.str lbl :: v.map Cell.num

/-- Pointwise sum of a list of equal-length vectors (empty input gives the
empty vector). -/
def vecSum (vs : List (List ℚ)) : List ℚ :=
  match vs with
  | [] => []
  | v :: rest => rest.foldl (fun a b => List.zipWith (· + ·) a b) v

/-- The numeric tail of a paid-strategy data row for a report without
selected attributes: raw metric values, then user-selected derived
metrics, then additional derived metrics. -/
def paidRowVals (selected : List String) (report : Report) (it : DimItem) :
    List ℚ :=
  it.metrics
    ++ (if report.selected_metrics ≠ [] ∧ 0 < it.metrics.length then
          calculate_user_selected_metrics cfgPaid it.metrics selected report
        else [])
    ++ (if additionalForRow report ≠ [] ∧ 0 < it.metrics.length then
          calculate_additional_metrics it.metrics selected
            (additionalForRow report)
        else [])

/-- Base-aggregate extraction applied directly to a metric-name/value
pairing (the shape `_extract_base_data_from_row` reduces to on an
attribute-free single-label row). -/
def baseDataOf (selected : List String) (vals : List ℚ) : BaseData :=
  (selected.zip vals).foldl (fun bd p => extractStep bd p.1 p.2)
    { cost := 0, clicks := 0, visits := 0, revenue := 0, goal := 0 }

/-! ## Concrete fixtures for counterexamples and witnesses -/

/-- A free-traffic report selecting the `visits` attribute and nothing
else. -/
def rAttrVisits : Report :=
  { source := "free", date_1 := "2024-01-01", date_2 := "2024-01-31",
    goals := [], selected_metrics := [], selected_attributes := ["visits"],
    additional_metrics := none, cpa_goal := none, cpo_goal := none }

/-- A free-traffic report selecting nothing at all. -/
def rBare : Report :=
  { source := "free", date_1 := "2024-01-01", date_2 := "2024-01-31",
    goals := [], selected_metrics := [], selected_attributes := [],
    additional_metrics := none, cpa_goal := none, cpo_goal := none }

/-- A paid-traffic report selecting the `clicks` attribute and the `cpc`
derived metric. -/
def rPaidAttr : Report :=
  { source := "paid", date_1 := "2024-01-01", date_2 := "2024-01-31",
    goals := [], selected_metrics := ["cpc"],
    selected_attributes := ["clicks"], additional_metrics := none,
    cpa_goal := none, cpo_goal := none }

/-- A paid-traffic report selecting the `cpc` derived metric and no
attributes. -/
def rPaidPlain : Report :=
  { source := "paid", date_1 := "2024-01-01", date_2 := "2024-01-31",
    goals := [], selected_metrics := ["cpc"], selected_attributes := [],
    additional_metrics := none, cpa_goal := none, cpo_goal := none }

/-- Two ad-platform rows: costs 100 and 300, revenue 0, clicks 10 each
(per-row CPC 10 and 30; aggregate CPC 400/20 = 20). -/
def paidItems : List DimItem :=
  [⟨"1", "P1", [100, 0, 10]⟩, ⟨"2", "P2", [300, 0, 10]⟩]

/-- The metric plan the paid generator computes for `rPaidAttr`: the two
base metrics plus the attribute-mapped clicks metric. -/
def selPaidAttr : List String :=
  ["ym:ad:RUBConvertedAdCost", "ym:ad:ecommerceRUBConvertedRevenue",
   "ym:ad:clicks"]

/-- The metric plan the paid generator computes for `rPaidPlain`: just the
two base metrics. -/
def selPaidPlain : List String :=
  ["ym:ad:RUBConvertedAdCost", "ym:ad:ecommerceRUBConvertedRevenue"]

/-- Two ad-platform rows matching `rPaidPlain`'s two-metric plan. -/
def paidItemsPlain : List DimItem :=
  [⟨"1", "P1", [100, 0]⟩, ⟨"2", "P2", [300, 0]⟩]

/-- A two-main-row response (`M1`, `M2`) for the hierarchy-order claims. -/
def mainResp : MResponse :=
  ⟨[⟨"m1", "M1", [1]⟩, ⟨"m2", "M2", [2]⟩]⟩

/-- Details: two rows under `M1`, none under `M2`. -/
def detailOracle : String → Option MResponse :=
  fun id =>
    if id = "m1" then some ⟨[⟨"d1", "D1", [1]⟩, ⟨"d2", "D2", [1]⟩]⟩
    else some ⟨[]⟩

/-- First-cell label of a row. -/
def rowLabel (row : List Cell) : Cell :=
  row.headD (Cell.str "")

/-- A 21-name metric list (2 batches) and a single ground-truth row for
the batching round-trip witness; the oracle tells the two chunks apart by
their length. -/
def metricsBatch21 : List String := List.replicate 21 "x"

def rowsBatch21 : List DimItem := [⟨"i", "n", List.replicate 21 (2 : ℚ)⟩]

def reqBatch21 : List String → Option MResponse := fun b =>
  if b.length = 20 then some (chunkResp rowsBatch21 0)
  else some (chunkResp rowsBatch21 1)

/-- A 41-name metric list (3 batches) whose second batch fails, and the
matching oracle; chunks are told apart by their first name. -/
def metricsBatch41 : List String :=
  List.replicate 20 "a" ++ List.replicate 20 "b" ++ ["c"]

def rowsBatch41 : List DimItem := [⟨"i", "n", List.replicate 41 (3 : ℚ)⟩]

def reqBatch41 : List String → Option MResponse := fun b =>
  if b.headD "" = "a" then some (chunkResp rowsBatch41 0)
  else if b.headD "" = "b" then none
  else some (chunkResp rowsBatch41 2)

/-- The failed-batch set for the three-batch witness: exactly batch 1. -/
def badSecond : Nat → Bool := fun k => k == 1

/-- A three-row and a two-row single-column report for the merge claim. -/
def rd3 : ReportData :=
  { headers := ["H"],
    rows := [[Cell.num 1], [Cell.num 2], [Cell.num 3]] }

def rd2 : ReportData :=
  { headers := ["H"], rows := [[Cell.num 4], [Cell.num 5]] }

/-! # Theorems -/

/-! ## Planner lemmas -/

theorem dko_foldl_append (l acc : List String) :
    ∃ l', l'.Sublist l ∧
      l.foldl (fun acc x => if x ∈ acc then acc else acc ++ [x]) acc
        = acc ++ l' := by
  induction l generalizing acc with
  | nil => exact ⟨[], List.Sublist.refl _, by simp⟩
  | cons x xs ih =>
    by_cases hx : x ∈ acc
    · obtain ⟨l', hs, he⟩ := ih acc
      exact ⟨l', hs.cons x, by simp [hx, he]⟩
    · obtain ⟨l', hs, he⟩ := ih (acc ++ [x])
      exact ⟨x :: l', hs.cons₂ x, by simp [hx, he]⟩

theorem dko_foldl_mem (l : List String) : ∀ (acc : List String) (y : String),
    y ∈ l.foldl (fun acc x => if x ∈ acc then acc else acc ++ [x]) acc ↔
      y ∈ acc ∨ y ∈ l := by
  induction l with
  | nil => simp
  | cons x xs ih =>
    intro acc y
    by_cases hx : x ∈ acc
    · simp only [List.foldl_cons, if_pos hx, ih, List.mem_cons]
      constructor
      · rintro (h | h)
        · exact Or.inl h
        · exact Or.inr (Or.inr h)
      · rintro (h | h | h)
        · exact Or.inl h
        · exact Or.inl (h ▸ hx)
        · exact Or.inr h
    · simp only [List.foldl_cons, if_neg hx, ih, List.mem_append,
        List.mem_singleton, List.mem_cons]
      tauto

theorem dko_foldl_nodup (l : List String) : ∀ acc : List String,
    acc.Nodup →
    (l.foldl (fun acc x => if x ∈ acc then acc else acc ++ [x]) acc).Nodup := by
  induction l with
  | nil => intro acc h; simpa using h
  | cons x xs ih =>
    intro acc h
    simp only [List.foldl_cons]
    by_cases hx : x ∈ acc
    · rw [if_pos hx]; exact ih acc h
    · rw [if_neg hx]
      exact ih (acc ++ [x]) (by simp [List.nodup_append, h, hx])

/-- C7. The metric planner concatenates base metrics, goal metrics and the
mapped metric of each selected attribute present in the mapping (absent
attributes are skipped), removes duplicates keeping first occurrences,
never re-sorts, maps empty inputs to the empty list, and on the spec's
example `plan(base=[a,b], goals=[c], attrs=[x], map={x:b})` returns
`[a,b,c]`. -/
theorem metric_planner_spec :
    build_selected_metrics ["a", "b"] ["c"] ["x"] [("x", "b")] = ["a", "b", "c"]
    ∧ build_selected_metrics [] [] [] [] = []
    ∧ ∀ (base goals attrs : List String) (m : List (String × String)),
        (build_selected_metrics base goals attrs m).Sublist
            (base ++ goals ++ attrs.filterMap (fun attr => alookup m attr))
        ∧ (build_selected_metrics base goals attrs m).Nodup
        ∧ ∀ y, y ∈ build_selected_metrics base goals attrs m ↔
            y ∈ base ++ goals ++ attrs.filterMap (fun attr => alookup m attr) := by
  refine ⟨by decide, by decide, ?_⟩
  intro base goals attrs m
  refine ⟨?_, ?_, ?_⟩
  · obtain ⟨l', hs, he⟩ :=
      dko_foldl_append
        (base ++ goals ++ attrs.filterMap (fun attr => alookup m attr)) []
    simp only [build_selected_metrics, dedup_keep_order]
    rw [he]
    simpa using hs
  · exact dko_foldl_nodup _ [] List.nodup_nil
  · intro y
    simpa [build_selected_metrics, dedup_keep_order] using
      dko_foldl_mem
        (base ++ goals ++ attrs.filterMap (fun attr => alookup m attr)) [] y

/-! ## Derived metric calculator -/

/-- C6. Each derived-metric function returns `0.0` on a zero denominator
and otherwise its formula rounded to two decimals; on the spec's inputs:
`cpc(1000,250)=4`, `cr(20,200)=10`, `romi(3000,1000)=200`,
`cpc(100,0)=0`, `roi(0,0)=0`, `cr(5,0)=0`. -/
theorem derived_metric_functions :
    (∀ cost : ℚ, calculate_cpc cost 0 = 0)
    ∧ (∀ (cost : ℚ) (clicks : ℤ), clicks ≠ 0 →
        calculate_cpc cost clicks = round2 (cost / (clicks : ℚ)))
    ∧ (∀ cost : ℚ, calculate_cpa cost 0 = 0)
    ∧ (∀ (cost : ℚ) (conversions : ℤ), conversions ≠ 0 →
        calculate_cpa cost conversions = round2 (cost / (conversions : ℚ)))
    ∧ (∀ cost : ℚ, calculate_cpo cost 0 = 0)
    ∧ (∀ (cost : ℚ) (orders : ℤ), orders ≠ 0 →
        calculate_cpo cost orders = round2 (cost / (orders : ℚ)))
    ∧ (∀ conversions : ℤ, calculate_cr conversions 0 = 0)
    ∧ (∀ conversions visits : ℤ, visits ≠ 0 →
        calculate_cr conversions visits
          = round2 (((conversions : ℚ) / (visits : ℚ)) * 100))
    ∧ (∀ cost : ℚ, calculate_cac cost 0 = 0)
    ∧ (∀ (cost : ℚ) (new_customers : ℤ), new_customers ≠ 0 →
        calculate_cac cost new_customers
          = round2 (cost / (new_customers : ℚ)))
    ∧ (∀ revenue : ℚ, calculate_romi revenue 0 = 0)
    ∧ (∀ revenue cost : ℚ, cost ≠ 0 →
        calculate_romi revenue cost = round2 (((revenue - cost) / cost) * 100))
    ∧ (∀ revenue : ℚ, calculate_roi revenue 0 = 0)
    ∧ (∀ revenue cost : ℚ, cost ≠ 0 →
        calculate_roi revenue cost = round2 ((revenue / cost) * 100))
    ∧ (∀ cost : ℚ, calculate_drr cost 0 = 0)
    ∧ (∀ cost revenue : ℚ, revenue ≠ 0 →
        calculate_drr cost revenue = round2 ((cost / revenue) * 100))
    ∧ calculate_cpc 1000 250 = 4
    ∧ calculate_cr 20 200 = 10
    ∧ calculate_romi 3000 1000 = 200
    ∧ calculate_cpc 100 0 = 0
    ∧ calculate_roi 0 0 = 0
    ∧ calculate_cr 5 0 = 0 := by
  refine ⟨fun c => by simp [calculate_cpc],
    fun c k h => by simp [calculate_cpc, h],
    fun c => by simp [calculate_cpa],
    fun c k h => by simp [calculate_cpa, h],
    fun c => by simp [calculate_cpo],
    fun c k h => by simp [calculate_cpo, h],
    fun g => by simp [calculate_cr],
    fun g v h => by simp [calculate_cr, h],
    fun c => by simp [calculate_cac],
    fun c n h => by simp [calculate_cac, h],
    fun r => by simp [calculate_romi],
    fun r c h => by simp [calculate_romi, h],
    fun r => by simp [calculate_roi],
    fun r c h => by simp [calculate_roi, h],
    fun c => by simp [calculate_drr],
    fun c r h => by simp [calculate_drr, h],
    by norm_num [calculate_cpc, round2, pyRoundInt],
    by norm_num [calculate_cr, round2, pyRoundInt],
    by norm_num [calculate_romi, round2, pyRoundInt],
    by norm_num [calculate_cpc],
    by norm_num [calculate_roi],
    by norm_num [calculate_cr]⟩

/-- Witness for C6 at concrete inputs with non-zero denominators. -/
theorem derived_metric_functions_witness :
    calculate_cpc 7 2 = round2 ((7 : ℚ) / ((2 : ℤ) : ℚ))
    ∧ calculate_drr 3 8 = round2 (((3 : ℚ) / (8 : ℚ)) * 100) :=
  ⟨derived_metric_functions.2.1 7 2 (by decide),
   derived_metric_functions.2.2.2.2.2.2.2.2.2.2.2.2.2.2.2.1 3 8 (by decide)⟩

/-! ## Union merger -/

theorem flatMap_rows_length (rs : List (String × ReportData)) :
    (rs.flatMap (fun pr => pr.2.rows.map (fun row => Cell.str pr.1 :: row))).length
      = (rs.map (fun pr => pr.2.rows.length)).sum := by
  induction rs with
  | nil => rfl
  | cons r rest ih => simp [ih]

/-- C9. Union merge: headers are a Provider column followed by the first
result's headers; rows are all reports' rows, in result order, each
prefixed with its provider identifier — none dropped, added or reordered;
3 + 2 source rows yield 5 merged rows. -/
theorem union_merge_spec :
    (∀ (p0 : String) (first : ReportData) (rest : List (String × ReportData)),
      (union_merge ((p0, first) :: rest)).headers
          = "Провайдер" :: first.headers
      ∧ (union_merge ((p0, first) :: rest)).rows
          = ((p0, first) :: rest).flatMap
              (fun pr => pr.2.rows.map (fun row => Cell.str pr.1 :: row))
      ∧ (union_merge ((p0, first) :: rest)).rows.length
          = (((p0, first) :: rest).map (fun pr => pr.2.rows.length)).sum)
    ∧ (union_merge [("a", rd3), ("b", rd2)]).rows.length = 5 := by
  refine ⟨fun p0 first rest => ⟨rfl, rfl, ?_⟩, by decide⟩
  exact flatMap_rows_length ((p0, first) :: rest)

/-! ## Collector frame property -/

/-- C10. After a collector branch completes (sequential embedding of
`run_one`), the shared report is exactly what it was before the branch:
the traffic-kind override is restored on every path — unknown provider,
missing integration, raising generation, empty generation — and no other
field is modified. -/
theorem collector_restores_report {α : Type} (spec : SourceSpec)
    (hasYandexIntegration : Bool)
    (generation : String → Except Unit (Option ReportData))
    (report : CReport α) :
    (runOne spec hasYandexIntegration generation report).1 = report := rfl

/-! ## Header/row length invariant (C2) -/

/-- C2. The spec's invariant `len(row) == len(headers)` fails on the code:
for a free-traffic report selecting only the `visits` attribute, the
planner yields `[ym:s:visits]`, the headers list has 3 entries (the
attribute's display name is emitted twice) while every data row has 2
cells — the attribute-mapped metric is skipped in the row but re-emitted
in the headers because its display-name lookup precedes the
attribute-skip test. -/
theorem header_row_length_mismatch :
    build_selected_metrics FREE_METRICS
        (get_goal_metrics rAttrVisits.goals "free").1
        rAttrVisits.selected_attributes FREE_ATTRIBUTES_MAPPING
      = ["ym:s:visits"]
    ∧ (build_main_headers cfgFree ["ym:s:visits"] [] rAttrVisits).length = 3
    ∧ (build_data_row cfgFree "Organic" [5] ["ym:s:visits"] rAttrVisits).length
      = 2
    ∧ (build_main_headers cfgFree ["ym:s:visits"] [] rAttrVisits).length
      ≠ (build_data_row cfgFree "Organic" [5] ["ym:s:visits"]
          rAttrVisits).length := by
  refine ⟨by decide, by decide, by decide, by decide⟩

/-! ## Hierarchical fetch ordering (C1) -/

theorem flatMap_of_map {α β γ : Type} (l : List α) (f : α → β)
    (g : β → List γ) :
    (l.map f).flatMap g = l.flatMap (fun x => g (f x)) := by
  induction l with
  | nil => rfl
  | cons x xs ih => simp [ih]

theorem map_of_flatMap {α β γ : Type} (l : List α) (g : α → List β)
    (h : β → γ) :
    (l.flatMap g).map h = l.flatMap (fun x => (g x).map h) := by
  induction l with
  | nil => rfl
  | cons x xs ih => simp [ih]

theorem build_data_row_label (cfg : GenCfg) (name : String)
    (metrics_data : List ℚ) (selected_metrics : List String)
    (report : Report) :
    rowLabel (build_data_row cfg name metrics_data selected_metrics report)
      = Cell.str name := rfl

/-- C1 (counterexample). On main rows `[M1, M2]` with detail rows
`{M1: [D1, D2], M2: []}`, the assembled label order is
`[M1, M2, "  D1", "  D2"]` — all main rows first, then the detail rows —
not the claimed `[M1, "  D1", "  D2", M2]`. -/
theorem hierarchy_order_counterexample :
    (process_hierarchical_data cfgFree rBare ["ym:s:visits"] []
        (some mainResp) detailOracle).2.map rowLabel
      = [Cell.str "M1", Cell.str "M2", Cell.str "  D1", Cell.str "  D2"]
    ∧ (process_hierarchical_data cfgFree rBare ["ym:s:visits"] []
        (some mainResp) detailOracle).2.map rowLabel
      ≠ [Cell.str "M1", Cell.str "  D1", Cell.str "  D2", Cell.str "M2"] := by
  refine ⟨by decide, by decide⟩

/-- C1 (amended). For a hierarchical fetch with a detail dimension and
non-empty main data, the assembled rows are: every main row, in provider
arrival order, followed by all detail rows appended after the last main
row, grouped by main key in main-row order, each detail label prefixed
with two spaces — details are not interleaved into their main row's
block. -/
theorem hierarchy_details_after_mains (cfg : GenCfg) (report : Report)
    (selected : List String) (goal_names : List (String × String))
    (md : MResponse) (detailFetch : String → Option MResponse)
    (hdd : cfg.detail_dimensions ≠ []) (hmd : md.data ≠ []) :
    (process_hierarchical_data cfg report selected goal_names (some md)
        detailFetch).2
      = md.data.map (fun it =>
          build_data_row cfg it.dimName it.metrics selected report)
        ++ md.data.flatMap (fun it =>
            match detailFetch it.dimId with
            | some dd => dd.data.map (fun d =>
                build_data_row cfg ("  " ++ d.dimName) d.metrics selected
                  report)
            | none => [])
    ∧ (process_hierarchical_data cfg report selected goal_names (some md)
        detailFetch).2.map rowLabel
      = md.data.map (fun it => Cell.str it.dimName)
        ++ md.data.flatMap (fun it =>
            match detailFetch it.dimId with
            | some dd => dd.data.map (fun d => Cell.str ("  " ++ d.dimName))
            | none => []) := by
  have hrows : (process_hierarchical_data cfg report selected goal_names
      (some md) detailFetch).2
      = md.data.map (fun it =>
          build_data_row cfg it.dimName it.metrics selected report)
        ++ md.data.flatMap (fun it =>
            match detailFetch it.dimId with
            | some dd => dd.data.map (fun d =>
                build_data_row cfg ("  " ++ d.dimName) d.metrics selected
                  report)
            | none => []) := by
    simp only [process_hierarchical_data, if_neg hmd, if_neg hdd]
    rw [flatMap_of_map]
  refine ⟨hrows, ?_⟩
  rw [hrows, List.map_append, List.map_map, map_of_flatMap]
  congr 1
  exact congrArg _ (funext fun it => by
    cases detailFetch it.dimId with
    | none => rfl
    | some dd => simp [List.map_map, Function.comp, build_data_row_label])

/-- Witness for C1's amended theorem on the concrete two-main/two-detail
fixture. -/
theorem hierarchy_details_after_mains_witness :
    (process_hierarchical_data cfgFree rBare ["ym:s:visits"] []
        (some mainResp) detailOracle).2.map rowLabel
      = mainResp.data.map (fun it => Cell.str it.dimName)
        ++ mainResp.data.flatMap (fun it =>
            match detailOracle it.dimId with
            | some dd => dd.data.map (fun d => Cell.str ("  " ++ d.dimName))
            | none => []) :=
  (hierarchy_details_after_mains cfgFree rBare ["ym:s:visits"] [] mainResp
    detailOracle (by decide) (by decide)).2

/-! ## Empty stages and failure (C3) -/

/-- C3 (counterexample). The free-strategy generator does not fail when
the main-level fetch yields no data: it returns a `ReportData` with
headers and zero rows. -/
theorem free_empty_main_counterexample :
    freeGenerateReport rBare none (fun _ => none) ≠ none
    ∧ ((freeGenerateReport rBare none (fun _ => none)).getD
        ⟨[], []⟩).rows = [] := by
  refine ⟨by decide, by decide⟩

/-- Every gathered branch result of a run with zero successful branches
is `None`, so the collector's final comprehension keeps nothing. -/
theorem gatherResults_none {α : Type} (hasY : Bool)
    (generation : String → Except Unit (Option ReportData)) :
    ∀ (specs : List SourceSpec) (report : CReport α),
      (∀ spec ∈ specs, ∀ pr : String × ReportData,
        (runOne spec hasY generation report).2 ≠ Except.ok (some pr)) →
      ∀ items,
        (gatherResults hasY generation report specs).2 = Except.ok items →
        items.filterMap id = [] := by
  intro specs
  induction specs with
  | nil =>
    intro report _ items h
    injection h with h
    rw [← h]
    rfl
  | cons spec rest ih =>
    intro report hno items h
    cases hr : (runOne spec hasY generation report).2 with
    | error e =>
      simp only [gatherResults, hr] at h
      simp at h
    | ok item =>
      cases item with
      | some pr =>
        exact absurd hr (hno spec (List.mem_cons_self spec rest) pr)
      | none =>
        simp only [gatherResults, hr] at h
        rw [show (runOne spec hasY generation report).1 = report from rfl]
          at h
        cases hg : (gatherResults hasY generation report rest).2 with
        | error e =>
          rw [hg] at h
          simp at h
        | ok items₂ =>
          rw [hg] at h
          simp only at h
          injection h with h
          rw [← h]
          have hstep : (none :: items₂ :
              List (Option (String × ReportData))).filterMap id
              = items₂.filterMap id := rfl
          rw [hstep]
          exact ih report
            (fun s hs pr => hno s (List.mem_cons_of_mem spec hs) pr)
            items₂ hg

/-- C3 (amended). On an empty or failed main-level fetch the paid and
direct strategies return a failure (`None`) — including when client-scope
resolution fails — while the free strategy (also used for the `all`
traffic kind, which is the free generator with ad traffic included)
always returns a `ReportData`, with zero rows in that case. A
multi-provider run in which zero branches succeed — every branch raises,
returns no data, names an unknown provider, or lacks the required
integration — collects nothing, and the service then returns `None`: no
partial `TabularReport` reaches the caller. -/
theorem empty_data_failure_by_strategy :
    (∀ (report : Report) (clients : Option (List (Option String))),
      paidGenerateReport report clients none = none)
    ∧ (∀ (report : Report) (clients : Option (List (Option String))),
      paidGenerateReport report clients (some ⟨[]⟩) = none)
    ∧ (∀ (report : Report) (clients : Option (List (Option String)))
        (df : String → Option MResponse),
      directGenerateReport report clients none df = none)
    ∧ (∀ (report : Report) (clients : Option (List (Option String)))
        (df : String → Option MResponse),
      directGenerateReport report clients (some ⟨[]⟩) df = none)
    ∧ (∀ (report : Report) (df : String → Option MResponse),
      freeGenerateReport report none df ≠ none
      ∧ ((freeGenerateReport report none df).getD ⟨[], []⟩).rows = [])
    ∧ (∀ (report : Report) (df : String → Option MResponse),
      freeGenerateReport report (some ⟨[]⟩) df ≠ none
      ∧ ((freeGenerateReport report (some ⟨[]⟩) df).getD
          ⟨[], []⟩).rows = [])
    ∧ (∀ (α : Type) (report : CReport α) (specs : List SourceSpec)
        (hasY : Bool)
        (generation : String → Except Unit (Option ReportData)),
      (∀ spec ∈ specs, ∀ pr : String × ReportData,
        (runOne spec hasY generation report).2 ≠ Except.ok (some pr)) →
      (∀ collected,
          (collect_reports report specs hasY generation).2
            = Except.ok collected → collected = [])
      ∧ generate_report_data report specs hasY generation = none) := by
  refine ⟨?_, ?_, ?_, ?_, ?_, ?_, ?_⟩
  · intro report clients
    cases clients with
    | none => rfl
    | some cs =>
      simp only [paidGenerateReport]
      split
      · rfl
      · rfl
  · intro report clients
    cases clients with
    | none => rfl
    | some cs =>
      simp only [paidGenerateReport]
      split
      · rfl
      · simp
  · intro report clients df
    cases clients with
    | none => rfl
    | some cs =>
      simp only [directGenerateReport]
      split
      · rfl
      · rfl
  · intro report clients df
    cases clients with
    | none => rfl
    | some cs =>
      simp only [directGenerateReport]
      split
      · rfl
      · simp
  · intro report df
    exact ⟨by simp [freeGenerateReport], by
      simp [freeGenerateReport, process_hierarchical_data]⟩
  · intro report df
    exact ⟨by simp [freeGenerateReport], by
      simp [freeGenerateReport, process_hierarchical_data]⟩
  · intro α report specs hasY generation hno
    have hempty : ∀ collected,
        (collect_reports report specs hasY generation).2
          = Except.ok collected → collected = [] := by
      intro collected h
      by_cases hs : specs = []
      · rw [collect_reports, if_pos hs] at h
        injection h with h
        exact h.symm
      · simp only [collect_reports, if_neg hs] at h
        cases hg : (gatherResults hasY generation report specs).2 with
        | error e =>
          rw [hg] at h
          simp at h
        | ok results =>
          rw [hg] at h
          simp only at h
          injection h with h
          rw [← h]
          exact gatherResults_none hasY generation specs report hno
            results hg
    refine ⟨hempty, ?_⟩
    rw [generate_report_data]
    cases hc : (collect_reports report specs hasY generation).2 with
    | error e =>
      rfl
    | ok collected =>
      dsimp only
      rw [if_pos (hempty collected hc)]

/-! ## Chunking lemmas (C4/C5) -/

theorem chunksOfFuel_irrel {α : Type} (n : Nat) :
    ∀ (fuel₁ fuel₂ : Nat) (l : List α), l.length ≤ fuel₁ →
      l.length ≤ fuel₂ → chunksOfFuel n fuel₁ l = chunksOfFuel n fuel₂ l := by
  intro fuel₁
  induction fuel₁ with
  | zero =>
    intro fuel₂ l h₁ _
    have : l = [] := List.eq_nil_of_length_eq_zero (Nat.le_zero.mp h₁)
    subst this
    cases fuel₂ <;> rfl
  | succ f ih =>
    intro fuel₂ l h₁ h₂
    cases l with
    | nil => cases fuel₂ <;> rfl
    | cons x xs =>
      cases fuel₂ with
      | zero => simp at h₂
      | succ f₂ =>
        simp only [chunksOfFuel]
        congr 1
        refine ih f₂ (xs.drop (n - 1)) ?_ ?_ <;>
          simp only [List.length_drop] <;>
          simp only [List.length_cons] at h₁ h₂ <;> omega

theorem chunksOf_cons {α : Type} (n : Nat) (x : α) (xs : List α) :
    chunksOf n (x :: xs)
      = (x :: xs.take (n - 1)) :: chunksOf n (xs.drop (n - 1)) := by
  simp only [chunksOf, List.length_cons, chunksOfFuel]
  congr 1
  exact chunksOfFuel_irrel n xs.length _ (xs.drop (n - 1))
    (by simp [List.length_drop]) (by simp [List.length_drop])

theorem chunksOf_flatten {α : Type} (n : Nat) : ∀ (l : List α),
    (chunksOf n l).flatten = l := by
  have go : ∀ (fuel : Nat) (l : List α), l.length ≤ fuel →
      (chunksOfFuel n fuel l).flatten = l := by
    intro fuel
    induction fuel with
    | zero =>
      intro l h
      have : l = [] := List.eq_nil_of_length_eq_zero (Nat.le_zero.mp h)
      subst this; rfl
    | succ f ih =>
      intro l h
      cases l with
      | nil => rfl
      | cons x xs =>
        simp only [chunksOfFuel, List.flatten_cons]
        rw [ih (xs.drop (n - 1))
          (by simp only [List.length_drop]
              simp only [List.length_cons] at h
              omega)]
        simp [List.take_append_drop]
  intro l
  exact go l.length l le_rfl

theorem chunksOf_length_le {α : Type} (n : Nat) (hn : 1 ≤ n) :
    ∀ (l : List α), ∀ c ∈ chunksOf n l, c.length ≤ n := by
  have go : ∀ (fuel : Nat) (l : List α), l.length ≤ fuel →
      ∀ c ∈ chunksOfFuel n fuel l, c.length ≤ n := by
    intro fuel
    induction fuel with
    | zero =>
      intro l h
      have : l = [] := List.eq_nil_of_length_eq_zero (Nat.le_zero.mp h)
      subst this; intro c hc; simp [chunksOfFuel] at hc
    | succ f ih =>
      intro l h c hc
      cases l with
      | nil => simp [chunksOfFuel] at hc
      | cons x xs =>
        simp only [chunksOfFuel, List.mem_cons] at hc
        rcases hc with hc | hc
        · subst hc
          simp only [List.length_cons, List.length_take]
          omega
        · exact ih (xs.drop (n - 1))
            (by simp only [List.length_drop]
                simp only [List.length_cons] at h
                omega) c hc
  intro l
  exact go l.length l le_rfl

theorem chunksOf_length_congr {α β : Type} (n : Nat) : ∀ (v : List α)
    (w : List β), v.length = w.length →
    (chunksOf n v).length = (chunksOf n w).length := by
  have go : ∀ (fuel : Nat) (v : List α) (w : List β), v.length ≤ fuel →
      v.length = w.length →
      (chunksOfFuel n fuel v).length = (chunksOfFuel n fuel w).length := by
    intro fuel
    induction fuel with
    | zero =>
      intro v w hf hl
      have hv : v = [] := List.eq_nil_of_length_eq_zero (Nat.le_zero.mp hf)
      subst hv
      have hw : w = [] :=
        List.eq_nil_of_length_eq_zero (by omega)
      subst hw; rfl
    | succ f ih =>
      intro v w hf hl
      cases v with
      | nil =>
        have hw : w = [] :=
          List.eq_nil_of_length_eq_zero (by simpa using hl.symm)
        subst hw; rfl
      | cons x xs =>
        cases w with
        | nil => simp at hl
        | cons y ys =>
          simp only [chunksOfFuel, List.length_cons]
          congr 1
          refine ih (xs.drop (n - 1)) (ys.drop (n - 1)) ?_ ?_ <;>
            simp only [List.length_drop] <;>
            simp only [List.length_cons] at hf hl <;> omega
  intro v w h
  rw [chunksOf, chunksOf,
    go v.length v w le_rfl h, h]

theorem map_getD_range {α : Type} (d : α) : ∀ (l : List α),
    (List.range l.length).map (fun k => l.getD k d) = l := by
  intro l
  induction l with
  | nil => rfl
  | cons x xs ih =>
    rw [List.length_cons, List.range_succ_eq_map]
    simp only [List.map_cons, List.map_map]
    refine congrArg₂ _ rfl ?_
    have hfn : ((fun k => (x :: xs).getD k d) ∘ Nat.succ)
        = (fun k => xs.getD k d) := funext fun k => rfl
    rw [hfn]
    exact ih

/-! ## Merge lemmas (C4/C5) -/

theorem zipWith_left {α β : Type} : ∀ (l : List α) (l' : List β),
    l.length ≤ l'.length → List.zipWith (fun a _ => a) l l' = l := by
  intro l
  induction l with
  | nil => intro l' _; rfl
  | cons x xs ih =>
    intro l' h
    cases l' with
    | nil => simp at h
    | cons y ys =>
      simp only [List.zipWith_cons_cons]
      rw [ih ys (by simpa using h)]

theorem zipWith_comp {α β γ δ : Type} (f : α → β → γ) (g : γ → β → δ) :
    ∀ (l : List α) (l' : List β),
      List.zipWith g (List.zipWith f l l') l'
        = List.zipWith (fun a b => g (f a b) b) l l' := by
  intro l
  induction l with
  | nil => intro l'; rfl
  | cons x xs ih =>
    intro l'
    cases l' with
    | nil => rfl
    | cons y ys => simp only [List.zipWith_cons_cons, ih]

theorem withCols_length (rows : List DimItem) (cols : List (List ℚ)) :
    (withCols rows cols).length = min rows.length cols.length := by
  simp [withCols]

theorem withCols_map (rows : List DimItem) (f : DimItem → List ℚ) :
    withCols rows (rows.map f)
      = rows.map (fun it => { it with metrics := f it }) := by
  induction rows with
  | nil => rfl
  | cons r rest ih => simp only [withCols, List.map_cons,
      List.zipWith_cons_cons] at ih ⊢; rw [ih]

theorem chunkResp_eq_withCols (rows : List DimItem) (k : Nat) :
    chunkResp rows k
      = ⟨withCols rows (rows.map (fun it =>
          (chunksOf MAX_METRICS_PER_REQUEST it.metrics).getD k []))⟩ := by
  rw [chunkResp, withCols_map]

theorem mergeOneBatch_aligned (rows : List DimItem) :
    ∀ (acc cols : List (List ℚ)), acc.length = rows.length →
      cols.length = rows.length →
      mergeOneBatch ⟨withCols rows acc⟩ (some ⟨withCols rows cols⟩)
        = ⟨withCols rows (List.zipWith (· ++ ·) acc cols)⟩ := by
  intro acc cols hacc hcols
  have hlen : (withCols rows acc).length = (withCols rows cols).length := by
    simp [withCols_length, hacc, hcols]
  simp only [mergeOneBatch, hlen, ne_eq, not_true_eq_false, if_false,
    ite_false]
  · congr 1
    clear hlen
    induction rows generalizing acc cols with
    | nil => simp [withCols]
    | cons r rest ih =>
      cases acc with
      | nil => simp at hacc
      | cons a as =>
        cases cols with
        | nil => simp at hcols
        | cons c cs =>
          simp only [withCols, List.zipWith_cons_cons] at ih ⊢
          rw [ih as cs (by simpa using hacc) (by simpa using hcols)]

theorem mergeOneBatch_skip (base : MResponse) (b : MResponse)
    (h : base.data.length ≠ b.data.length) :
    mergeOneBatch base (some b) = base := by
  simp [mergeOneBatch, h]

theorem goodChunksJoin_cons_good (bad : Nat → Bool) (k : Nat)
    (ks : List Nat) (v : List ℚ) (h : bad k = false) :
    goodChunksJoin bad (k :: ks) v
      = (chunksOf MAX_METRICS_PER_REQUEST v).getD k []
        ++ goodChunksJoin bad ks v := by
  simp [goodChunksJoin, List.filter_cons, h]

theorem goodChunksJoin_cons_bad (bad : Nat → Bool) (k : Nat)
    (ks : List Nat) (v : List ℚ) (h : bad k = true) :
    goodChunksJoin bad (k :: ks) v = goodChunksJoin bad ks v := by
  simp [goodChunksJoin, List.filter_cons, h]

theorem range_map_shift (k0 n : Nat) :
    (List.range (n + 1)).map (fun i => k0 + i)
      = k0 :: (List.range n).map (fun i => (k0 + 1) + i) := by
  rw [List.range_succ_eq_map]
  simp only [List.map_cons, List.map_map, Nat.add_zero]
  congr 1
  exact congrArg (fun f => List.map f (List.range n))
    (funext fun i => by show k0 + (i + 1) = k0 + 1 + i; omega)

theorem keepDataBatch_good (req : List String → Option MResponse)
    (c : List String) (rows : List DimItem) (k : Nat)
    (h : req c = some (chunkResp rows k)) (hrows : rows ≠ []) :
    keepDataBatch req c = some (chunkResp rows k) := by
  simp only [keepDataBatch, h]
  rw [if_neg]
  simp only [chunkResp, ne_eq, List.map_eq_nil_iff]
  exact hrows

theorem merge_metric_batches_cons (base : MResponse)
    (x : Option MResponse) (xs : List (Option MResponse)) :
    merge_metric_batches base (x :: xs)
      = merge_metric_batches (mergeOneBatch base x) xs := rfl

/-- The merge loop over the non-first batches: good batches extend every
row with their chunk's values in order, failed / empty / size-mismatched
batches contribute nothing. -/
theorem merge_tail (rows : List DimItem) (hrows : rows ≠ [])
    (req : List String → Option MResponse) (bad : Nat → Bool) :
    ∀ (cs : List (List String)) (k0 : Nat) (acc : List (List ℚ)),
      acc.length = rows.length →
      (∀ i, i < cs.length →
        (if bad (k0 + i) then isBadBatch (req (cs.getD i [])) rows = true
         else req (cs.getD i []) = some (chunkResp rows (k0 + i)))) →
      merge_metric_batches ⟨withCols rows acc⟩
          ((cs.filterMap (keepDataBatch req)).map some)
        = ⟨withCols rows (List.zipWith (fun a it =>
            a ++ goodChunksJoin bad
              ((List.range cs.length).map (fun i => k0 + i)) it.metrics)
            acc rows)⟩ := by
  intro cs
  induction cs with
  | nil =>
    intro k0 acc hacc _
    simp only [List.filterMap_nil, List.map_nil, merge_metric_batches,
      List.foldl_nil, List.length_nil, List.range_zero]
    congr 1
    have : (List.zipWith (fun (a : List ℚ) (it : DimItem) =>
        a ++ goodChunksJoin bad [] it.metrics) acc rows)
        = List.zipWith (fun a _ => a) acc rows :=
      congrArg (fun f => List.zipWith f acc rows)
        (funext fun a => funext fun it => by simp [goodChunksJoin])
    rw [this, zipWith_left acc rows (le_of_eq hacc)]
  | cons c cs' ih =>
    intro k0 acc hacc horacle
    have h0 := horacle 0 (by simp)
    simp only [List.getD_cons_zero, Nat.add_zero] at h0
    have hlen1 : (cs'.length + 1) = (c :: cs').length := by simp
    rw [List.length_cons, range_map_shift]
    by_cases hb : bad k0
    · -- this batch fails: dropped by the filter or skipped by the merge
      rw [if_pos hb] at h0
      have hjoin : (List.zipWith (fun a (it : DimItem) =>
          a ++ goodChunksJoin bad
            (k0 :: (List.range cs'.length).map (fun i => (k0 + 1) + i))
            it.metrics) acc rows)
          = List.zipWith (fun a (it : DimItem) =>
              a ++ goodChunksJoin bad
                ((List.range cs'.length).map (fun i => (k0 + 1) + i))
                it.metrics) acc rows :=
        congrArg (fun f => List.zipWith f acc rows)
          (funext fun a => funext fun it => by
            rw [goodChunksJoin_cons_bad bad k0 _ _ hb])
      rw [hjoin]
      have horacle' : ∀ i, i < cs'.length →
          (if bad ((k0 + 1) + i) then
            isBadBatch (req (cs'.getD i [])) rows = true
           else req (cs'.getD i []) = some (chunkResp rows ((k0 + 1) + i))) := by
        intro i hi
        have := horacle (i + 1) (by simpa using Nat.succ_lt_succ hi)
        simpa [List.getD_cons_succ, Nat.add_assoc, Nat.add_comm 1 i]
          using this
      cases hreq : req c with
      | none =>
        have hkeep : keepDataBatch req c = none := by
          simp [keepDataBatch, hreq]
        simp only [List.filterMap_cons, hkeep]
        exact ih (k0 + 1) acc hacc horacle'
      | some r =>
        rw [hreq] at h0
        by_cases hempty : r.data = []
        · have hkeep : keepDataBatch req c = none := by
            simp [keepDataBatch, hreq, hempty]
          simp only [List.filterMap_cons, hkeep]
          exact ih (k0 + 1) acc hacc horacle'
        · have hmismatch : r.data.length ≠ rows.length := by
            simp only [isBadBatch, List.isEmpty_iff, Bool.or_eq_true,
              decide_eq_true_eq] at h0
            rcases h0 with h | h
            · exact absurd h hempty
            · exact h
          have hkeep : keepDataBatch req c = some r := by
            simp [keepDataBatch, hreq, hempty]
          simp only [List.filterMap_cons, hkeep, List.map_cons,
            merge_metric_batches_cons]
          rw [mergeOneBatch_skip _ _ (by
            rw [withCols_length, hacc, Nat.min_self]
            exact fun h => hmismatch h.symm)]
          exact ih (k0 + 1) acc hacc horacle'
    · -- this batch succeeds: every row is extended with its chunk values
      rw [if_neg hb] at h0
      have horacle' : ∀ i, i < cs'.length →
          (if bad ((k0 + 1) + i) then
            isBadBatch (req (cs'.getD i [])) rows = true
           else req (cs'.getD i []) = some (chunkResp rows ((k0 + 1) + i))) := by
        intro i hi
        have := horacle (i + 1) (by simpa using Nat.succ_lt_succ hi)
        simpa [List.getD_cons_succ, Nat.add_assoc, Nat.add_comm 1 i]
          using this
      have hkeep := keepDataBatch_good req c rows k0 h0 hrows
      simp only [List.filterMap_cons, hkeep, List.map_cons,
        merge_metric_batches_cons]
      rw [chunkResp_eq_withCols,
        mergeOneBatch_aligned rows acc _ hacc (by simp)]
      rw [ih (k0 + 1)
        (List.zipWith (· ++ ·) acc (rows.map (fun it =>
          (chunksOf MAX_METRICS_PER_REQUEST it.metrics).getD k0 [])))
        (by rw [List.length_zipWith, hacc, List.length_map, Nat.min_self])
        horacle']
      congr 1
      rw [List.zipWith_map_right, zipWith_comp]
      refine congrArg (withCols rows) ?_
      exact congrArg (fun f => List.zipWith f acc rows)
        (funext fun a => funext fun it => by
          rw [List.append_assoc,
            goodChunksJoin_cons_good bad k0 _ _ (by simpa using hb)])

/-- The full batched fetch against an oracle whose chunk `k` either fails
(`bad k`) or answers with the `k`-th slice of every row's metric values:
the result decorates every row with the concatenation of the surviving
slices, in chunk order. -/
theorem batch_pipeline (metrics : List String) (rows : List DimItem)
    (req : List String → Option MResponse) (bad : Nat → Bool)
    (h20 : MAX_METRICS_PER_REQUEST < metrics.length)
    (hne : rows ≠ [])
    (hbad0 : bad 0 = false)
    (horacle : ∀ k, k < (chunksOf MAX_METRICS_PER_REQUEST metrics).length →
      (if bad k then
        isBadBatch
          (req ((chunksOf MAX_METRICS_PER_REQUEST metrics).getD k [])) rows
          = true
       else req ((chunksOf MAX_METRICS_PER_REQUEST metrics).getD k [])
          = some (chunkResp rows k))) :
    getMetrikaData req metrics
      = some ⟨rows.map (fun it => { it with metrics :=
          (goodChunksJoin bad
            (List.range (chunksOf MAX_METRICS_PER_REQUEST metrics).length)
            it.metrics) })⟩ := by
  have hm : ¬ metrics.length ≤ MAX_METRICS_PER_REQUEST := by omega
  cases hch : chunksOf MAX_METRICS_PER_REQUEST metrics with
  | nil =>
    exfalso
    have hflat := chunksOf_flatten MAX_METRICS_PER_REQUEST metrics
    rw [hch] at hflat
    simp only [List.flatten_nil] at hflat
    rw [← hflat] at h20
    simp [MAX_METRICS_PER_REQUEST] at h20
  | cons c0 crest =>
    have h0 := horacle 0 (by rw [hch]; simp)
    rw [if_neg (by simp [hbad0]), hch, List.getD_cons_zero] at h0
    simp only [getMetrikaData, if_neg hm, batchRequests, hch, h0]
    rw [if_neg (by simp [chunkResp, hne])]
    have hmt := merge_tail rows hne req bad crest 1
      (rows.map (fun it =>
        (chunksOf MAX_METRICS_PER_REQUEST it.metrics).getD 0 []))
      (by simp)
      (by
        intro i hi
        have := horacle (i + 1) (by rw [hch]; simpa using Nat.succ_lt_succ hi)
        rw [hch, List.getD_cons_succ] at this
        simpa [Nat.add_comm 1 i] using this)
    rw [chunkResp_eq_withCols, hmt]
    congr 2
    rw [List.zipWith_map_left, List.zipWith_same, withCols_map]
    refine congrArg (rows.map ·) (funext fun it => ?_)
    refine congrArg (DimItem.mk it.dimId it.dimName) ?_
    rw [List.length_cons, List.range_succ_eq_map,
      goodChunksJoin_cons_good bad 0 _ _ hbad0]
    refine congrArg _ (congrArg (fun ks => goodChunksJoin bad ks it.metrics) ?_)
    exact congrArg (fun f => List.map f (List.range crest.length))
      (funext fun i => by omega)

theorem chunksOf_exists_cons {α : Type} (n : Nat) (l : List α)
    (h : l ≠ []) : ∃ c0 crest, chunksOf n l = c0 :: crest := by
  cases l with
  | nil => exact absurd rfl h
  | cons x xs => exact ⟨_, _, chunksOf_cons n x xs⟩

/-- C4. A metric list longer than the cap is split into consecutive
order-preserving chunks of at most `MAX_METRICS_PER_REQUEST`; a 45-metric
list yields 3 batches; and when every chunk request succeeds with the
base batch's row count, the merged result restores every row's metric
values in the exact original order — nothing lost, nothing duplicated. -/
theorem batching_round_trip (metrics : List String) (rows : List DimItem)
    (req : List String → Option MResponse)
    (h20 : MAX_METRICS_PER_REQUEST < metrics.length)
    (hne : rows ≠ [])
    (hlen : ∀ it ∈ rows, it.metrics.length = metrics.length)
    (horacle : ∀ k, k < (chunksOf MAX_METRICS_PER_REQUEST metrics).length →
      req ((chunksOf MAX_METRICS_PER_REQUEST metrics).getD k [])
        = some (chunkResp rows k)) :
    getMetrikaData req metrics = some ⟨rows⟩
    ∧ (chunksOf MAX_METRICS_PER_REQUEST metrics).flatten = metrics
    ∧ (∀ c ∈ chunksOf MAX_METRICS_PER_REQUEST metrics,
        c.length ≤ MAX_METRICS_PER_REQUEST)
    ∧ (chunksOf MAX_METRICS_PER_REQUEST (List.replicate 45 "m")).length
      = 3 := by
  refine ⟨?_, chunksOf_flatten _ _,
    chunksOf_length_le _ (by norm_num [MAX_METRICS_PER_REQUEST]) _,
    by decide⟩
  have hp := batch_pipeline metrics rows req (fun _ => false) h20 hne rfl
    (by intro k hk; simpa using horacle k hk)
  rw [hp]
  refine congrArg some (congrArg MResponse.mk ?_)
  have hmap : rows.map (fun it => ({ it with metrics :=
      (goodChunksJoin (fun _ => false)
        (List.range (chunksOf MAX_METRICS_PER_REQUEST metrics).length)
        it.metrics) } : DimItem)) = rows.map id := by
    refine List.map_congr_left (fun it hit => ?_)
    have hv : goodChunksJoin (fun _ => false)
        (List.range (chunksOf MAX_METRICS_PER_REQUEST metrics).length)
        it.metrics = it.metrics := by
      rw [goodChunksJoin,
        ← chunksOf_length_congr MAX_METRICS_PER_REQUEST it.metrics metrics
          (hlen it hit)]
      simp only [Bool.not_false, List.filter_true]
      rw [map_getD_range [] (chunksOf MAX_METRICS_PER_REQUEST it.metrics),
        chunksOf_flatten]
    rw [hv]
    rfl
  rw [hmap, List.map_id]

/-- Witness for C4: 21 metrics split into two chunks, one row, both chunk
requests answered consistently; the merged fetch returns the original
row. -/
theorem batching_round_trip_witness :
    getMetrikaData reqBatch21 metricsBatch21 = some ⟨rowsBatch21⟩ :=
  (batching_round_trip metricsBatch21 rowsBatch21 reqBatch21 (by decide)
    (by decide) (by decide) (by decide)).1

/-- C5. First-batch failure (request failure or empty data) fails the
whole fetch with no data; a later batch that fails, returns no data, or
returns a mismatched row count contributes nothing — the fetch still
succeeds and every merged row carries exactly the surviving batches'
values, in chunk order. -/
theorem batch_failure_semantics (metrics : List String)
    (rows : List DimItem) (req : List String → Option MResponse)
    (bad : Nat → Bool)
    (h20 : MAX_METRICS_PER_REQUEST < metrics.length)
    (hne : rows ≠ [])
    (hbad0 : bad 0 = false)
    (horacle : ∀ k, k < (chunksOf MAX_METRICS_PER_REQUEST metrics).length →
      (if bad k then
        isBadBatch
          (req ((chunksOf MAX_METRICS_PER_REQUEST metrics).getD k [])) rows
          = true
       else req ((chunksOf MAX_METRICS_PER_REQUEST metrics).getD k [])
          = some (chunkResp rows k))) :
    getMetrikaData req metrics
      = some ⟨rows.map (fun it => { it with metrics :=
          (goodChunksJoin bad
            (List.range (chunksOf MAX_METRICS_PER_REQUEST metrics).length)
            it.metrics) })⟩
    ∧ (∀ req₂ : List String → Option MResponse,
        req₂ ((chunksOf MAX_METRICS_PER_REQUEST metrics).getD 0 []) = none →
        getMetrikaData req₂ metrics = none)
    ∧ (∀ (req₂ : List String → Option MResponse) (r : MResponse),
        req₂ ((chunksOf MAX_METRICS_PER_REQUEST metrics).getD 0 [])
          = some r →
        r.data = [] → getMetrikaData req₂ metrics = none) := by
  have hm : ¬ metrics.length ≤ MAX_METRICS_PER_REQUEST := by omega
  have hmne : metrics ≠ [] := by
    intro h
    rw [h] at h20
    simp [MAX_METRICS_PER_REQUEST] at h20
  obtain ⟨c0, crest, hch⟩ :=
    chunksOf_exists_cons MAX_METRICS_PER_REQUEST metrics hmne
  refine ⟨batch_pipeline metrics rows req bad h20 hne hbad0 horacle,
    ?_, ?_⟩
  · intro req₂ h
    rw [hch, List.getD_cons_zero] at h
    simp [getMetrikaData, hm, batchRequests, hch, h]
  · intro req₂ r h hdata
    rw [hch, List.getD_cons_zero] at h
    simp [getMetrikaData, hm, batchRequests, hch, h, hdata]

/-- Witness for C5: 41 metrics in three chunks, the second chunk's
request failing; and a first-batch failure on the same metric list. -/
theorem batch_failure_semantics_witness :
    getMetrikaData reqBatch41 metricsBatch41
      = some ⟨rowsBatch41.map (fun it => { it with metrics :=
          (goodChunksJoin badSecond
            (List.range
              (chunksOf MAX_METRICS_PER_REQUEST metricsBatch41).length)
            it.metrics) })⟩
    ∧ getMetrikaData (fun _ => none) metricsBatch41 = none :=
  ⟨(batch_failure_semantics metricsBatch41 rowsBatch41 reqBatch41 badSecond
      (by decide) (by decide) (by decide) (by decide)).1,
   (batch_failure_semantics metricsBatch41 rowsBatch41 reqBatch41 badSecond
      (by decide) (by decide) (by decide) (by decide)).2.1
      (fun _ => none) rfl⟩

/-! ## Paid aggregate lemmas (C8) -/

theorem dictIndexFrom_eq_none (m : String) : ∀ (l : List String) (i : Nat),
    m ∉ l → dictIndexFrom i l m = none := by
  intro l
  induction l with
  | nil => intro i _; rfl
  | cons x xs ih =>
    intro i hm
    simp only [List.mem_cons, not_or] at hm
    simp only [dictIndexFrom, ih (i + 1) hm.2]
    rw [if_neg (fun h => hm.1 h.symm)]

theorem dictIndexFrom_shift (m : String) : ∀ (l : List String) (i : Nat),
    dictIndexFrom i l m = (dictIndexFrom 0 l m).map (· + i) := by
  intro l
  induction l with
  | nil => intro i; rfl
  | cons x xs ih =>
    intro i
    simp only [dictIndexFrom, ih (i + 1), ih 1]
    cases h : dictIndexFrom 0 xs m with
    | some j => simp [Nat.add_assoc, Nat.add_comm 1 i]
    | none =>
      by_cases hx : x = m
      · simp [hx]
      · simp [hx]

theorem dictIndex_cons_self (x : String) (xs : List String) (h : x ∉ xs) :
    dictIndex (x :: xs) x = some 0 := by
  simp [dictIndex, dictIndexFrom, dictIndexFrom_eq_none x xs 1 h]

theorem dictIndexFrom_isSome (m : String) : ∀ (xs : List String),
    m ∈ xs → ∃ j, dictIndexFrom 0 xs m = some j := by
  intro xs
  induction xs with
  | nil => intro h; simp at h
  | cons y ys ih =>
    intro h
    simp only [dictIndexFrom, dictIndexFrom_shift m ys 1]
    by_cases hmem : m ∈ ys
    · obtain ⟨j, hj⟩ := ih hmem
      exact ⟨j + 1, by simp [hj]⟩
    · have hy : y = m := by
        rcases List.mem_cons.mp h with h' | h'
        · exact h'.symm
        · exact absurd h' hmem
      rw [dictIndexFrom_eq_none m ys 0 hmem]
      exact ⟨0, by simp [hy]⟩

theorem dictIndex_cons_mem (x m : String) (xs : List String) (h : m ∈ xs) :
    dictIndex (x :: xs) m = (dictIndex xs m).map (· + 1) := by
  obtain ⟨j, hj⟩ := dictIndexFrom_isSome m xs h
  simp [dictIndex, dictIndexFrom, dictIndexFrom_shift m xs 1, hj]

theorem map_rowValueAt : ∀ (sel : List String) (data : List ℚ),
    sel.Nodup → data.length = sel.length →
    sel.map (fun m => rowValueAt data (dictIndex sel m)) = data := by
  intro sel
  induction sel with
  | nil =>
    intro data _ hlen
    simp [List.eq_nil_of_length_eq_zero hlen]
  | cons m ms ih =>
    intro data hnd hlen
    cases data with
    | nil => simp at hlen
    | cons d ds =>
      simp only [List.nodup_cons] at hnd
      simp only [List.map_cons]
      congr 1
      · rw [dictIndex_cons_self m ms hnd.1]
        simp [rowValueAt]
      · have hstep : ∀ m' ∈ ms,
            rowValueAt (d :: ds) (dictIndex (m :: ms) m')
              = rowValueAt ds (dictIndex ms m') := by
          intro m' hm'
          rw [dictIndex_cons_mem m m' ms hm']
          obtain ⟨j, hj⟩ := dictIndexFrom_isSome m' ms hm'
          rw [show dictIndex ms m' = dictIndexFrom 0 ms m' from rfl, hj]
          simp only [Option.map_some', rowValueAt, List.length_cons]
          rw [List.getD_cons_succ]
          have : j + 1 < ds.length + 1 ↔ j < ds.length := by omega
          rw [if_congr this rfl rfl]
        rw [List.map_congr_left hstep]
        exact ih ds hnd.2 (by simpa using hlen)

theorem flatMap_if_skip {α β : Type} (P : α → Prop) [DecidablePred P]
    (f : α → β) : ∀ (l : List α), (∀ m ∈ l, ¬ P m) →
    l.flatMap (fun m => if P m then [] else [f m]) = l.map f := by
  intro l
  induction l with
  | nil => intro _; rfl
  | cons x xs ih =>
    intro h
    simp only [List.flatMap_cons, List.map_cons,
      if_neg (h x (List.mem_cons_self x xs)), ih
        (fun m hm => h m (List.mem_cons_of_mem x hm))]
    rfl

/-- The shape of `_build_data_row` for a report with no selected
attributes and a full metric vector: label, raw metric values, derived
values, additional values. -/
theorem build_data_row_no_attrs (cfg : GenCfg) (report : Report)
    (selected : List String) (name : String) (data : List ℚ)
    (hattr : report.selected_attributes = [])
    (hnd : selected.Nodup)
    (hno : ∀ m ∈ selected, m ∉ avalues cfg.attributes_mapping)
    (hlen : data.length = selected.length) :
    build_data_row cfg name data selected report
      = Cell.str name :: ((data
          ++ (if report.selected_metrics ≠ [] ∧ 0 < data.length then
                calculate_user_selected_metrics cfg data selected report
              else [])
          ++ (if additionalForRow report ≠ [] ∧ 0 < data.length then
                calculate_additional_metrics data selected
                  (additionalForRow report)
              else [])).map Cell.num) := by
  simp only [build_data_row, hattr, List.flatMap_nil, List.nil_append]
  rw [flatMap_if_skip (fun m => m ∈ avalues cfg.attributes_mapping)
    (fun m => Cell.num (rowValueAt data (dictIndex selected m))) selected hno]
  rw [show (fun m => Cell.num (rowValueAt data (dictIndex selected m)))
      = (Cell.num ∘ fun m => rowValueAt data (dictIndex selected m)) from rfl,
    ← List.map_map, map_rowValueAt selected data hnd hlen]
  rw [List.map_append, List.map_append]
  congr 1
  congr 1
  · rw [apply_ite (List.map Cell.num)]
    rfl
  · rw [apply_ite (List.map Cell.num)]
    rfl

/-- On the paid configuration the previous lemma says a data row is the
label followed by `paidRowVals`. -/
theorem build_data_row_paid_vals (report : Report) (selected : List String)
    (it : DimItem)
    (hattr : report.selected_attributes = [])
    (hnd : selected.Nodup)
    (hno : ∀ m ∈ selected, m ∉ avalues cfgPaid.attributes_mapping)
    (hlen : it.metrics.length = selected.length) :
    build_data_row cfgPaid it.dimName it.metrics selected report
      = numRow it.dimName (paidRowVals selected report it) := by
  rw [build_data_row_no_attrs cfgPaid report selected it.dimName it.metrics
    hattr hnd hno hlen]
  rfl

theorem zipWith_addCell : ∀ (acc v : List ℚ),
    List.zipWith
      (fun t r => match r with
        | Cell.num b => match t with
          | Cell.num a => Cell.num (a + b)
          | Cell.str s => Cell.str s
        | Cell.str _ => t)
      (acc.map Cell.num) (v.map Cell.num)
      = (List.zipWith (· + ·) acc v).map Cell.num := by
  intro acc
  induction acc with
  | nil => intro v; rfl
  | cons a as ih =>
    intro v
    cases v with
    | nil => rfl
    | cons b bs =>
      simp only [List.map_cons, List.zipWith_cons_cons, ih]

theorem addRowInto_numRow (lbl n : String) (acc v : List ℚ)
    (h : acc.length = v.length) :
    addRowInto (numRow lbl acc) (numRow n v)
      = some (numRow lbl (List.zipWith (· + ·) acc v)) := by
  simp only [addRowInto]
  rw [if_pos (by simp [numRow, h])]
  simp only [numRow, zipWith_addCell]
  rw [show (v.map Cell.num).length = (acc.map Cell.num).length by simp [h]]
  rw [List.drop_length, List.append_nil]

theorem initTotalRow_numRow (n : String) (v : List ℚ) :
    initTotalRow (numRow n v)
      = numRow "  Яндекс.Директ" (v.map (fun _ => 0)) := by
  simp only [initTotalRow, numRow, List.map_map]
  exact rfl

theorem zipWith_add_zeros : ∀ v : List ℚ,
    List.zipWith (· + ·) (v.map (fun _ => (0 : ℚ))) v = v := by
  intro v
  induction v with
  | nil => rfl
  | cons x xs ih => simp only [List.map_cons, List.zipWith_cons_cons, ih,
      zero_add]

theorem paidTotalRowGo_numRow :
    ∀ (items : List DimItem) (f : DimItem → List ℚ) (lbl : String)
      (acc : List ℚ), (∀ it ∈ items, (f it).length = acc.length) →
      paidTotalRowGo (numRow lbl acc)
          (items.map (fun it => numRow it.dimName (f it)))
        = some (numRow lbl
            (items.foldl (fun a it => List.zipWith (· + ·) a (f it)) acc)) := by
  intro items
  induction items with
  | nil => intro f lbl acc _; rfl
  | cons it0 rest ih =>
    intro f lbl acc h
    simp only [List.map_cons, List.foldl_cons, paidTotalRowGo]
    rw [addRowInto_numRow lbl it0.dimName acc (f it0)
      (h it0 (List.mem_cons_self it0 rest)).symm]
    exact ih f lbl (List.zipWith (· + ·) acc (f it0)) (by
      intro it hit
      rw [List.length_zipWith, h it0 (List.mem_cons_self it0 rest),
        Nat.min_self]
      exact h it (List.mem_cons_of_mem it0 hit))

theorem paidTotalRow_numRow (items : List DimItem) (f : DimItem → List ℚ)
    (L : Nat) (hne : items ≠ [])
    (h : ∀ it ∈ items, (f it).length = L) :
    paidTotalRow (items.map (fun it => numRow it.dimName (f it)))
      = some (some (numRow "  Яндекс.Директ" (vecSum (items.map f)))) := by
  cases items with
  | nil => exact absurd rfl hne
  | cons it0 rest =>
    simp only [List.map_cons, paidTotalRow, initTotalRow_numRow]
    rw [addRowInto_numRow _ it0.dimName _ (f it0) (by simp)]
    rw [zipWith_add_zeros (f it0)]
    dsimp only
    rw [paidTotalRowGo_numRow rest f "  Яндекс.Директ" (f it0) (by
      intro it hit
      rw [h it0 (List.mem_cons_self it0 rest)]
      exact h it (List.mem_cons_of_mem it0 hit))]
    simp only [Option.map_some', vecSum, List.foldl_map]

theorem calc_user_length (cfg : GenCfg) (data : List ℚ)
    (sel : List String) (report : Report) :
    (calculate_user_selected_metrics cfg data sel report).length
      = report.selected_metrics.length := by
  rw [calculate_user_selected_metrics]
  split
  · rename_i h
    simp [h]
  · simp

theorem calc_addl_length (data : List ℚ) (sel addl : List String) :
    (calculate_additional_metrics data sel addl).length = addl.length := by
  simp [calculate_additional_metrics]

theorem paidRowVals_length (selected : List String) (report : Report)
    (it : DimItem) (hS : selected ≠ [])
    (hlen : it.metrics.length = selected.length) :
    (paidRowVals selected report it).length
      = selected.length + report.selected_metrics.length
        + (additionalForRow report).length := by
  have hposS : 0 < selected.length := List.length_pos.mpr hS
  have hpos : 0 < it.metrics.length := by rw [hlen]; exact hposS
  rw [paidRowVals]
  simp only [List.length_append, hlen]
  by_cases hd : report.selected_metrics = []
  · by_cases ha : additionalForRow report = []
    · simp [hd, ha]
    · simp [hd, ha, hpos, hposS, calc_addl_length]
  · by_cases ha : additionalForRow report = []
    · simp [hd, ha, hpos, hposS, calc_user_length]
    · simp [hd, ha, hpos, hposS, calc_user_length, calc_addl_length]

theorem foldl_zipAdd_length : ∀ (vs : List (List ℚ)) (acc : List ℚ),
    (∀ v ∈ vs, v.length = acc.length) →
    (vs.foldl (fun a b => List.zipWith (· + ·) a b) acc).length
      = acc.length := by
  intro vs
  induction vs with
  | nil => intro acc _; rfl
  | cons v rest ih =>
    intro acc h
    simp only [List.foldl_cons]
    rw [ih (List.zipWith (· + ·) acc v) (by
      intro w hw
      rw [List.length_zipWith, h v (List.mem_cons_self v rest),
        Nat.min_self]
      exact h w (List.mem_cons_of_mem v hw))]
    rw [List.length_zipWith, h v (List.mem_cons_self v rest), Nat.min_self]

theorem vecSum_length (vs : List (List ℚ)) (L : Nat) (hne : vs ≠ [])
    (h : ∀ v ∈ vs, v.length = L) : (vecSum vs).length = L := by
  cases vs with
  | nil => exact absurd rfl hne
  | cons v rest =>
    rw [vecSum, foldl_zipAdd_length rest v (by
      intro w hw
      rw [h v (List.mem_cons_self v rest)]
      exact h w (List.mem_cons_of_mem v hw))]
    exact h v (List.mem_cons_self v rest)

theorem zip_take : ∀ (sel : List String) (vals : List ℚ),
    sel.zip (vals.take sel.length) = sel.zip vals := by
  intro sel
  induction sel with
  | nil => intro vals; rfl
  | cons m ms ih =>
    intro vals
    cases vals with
    | nil => rfl
    | cons v vs =>
      simp only [List.length_cons, List.take_succ_cons,
        List.zip_cons_cons, ih]

theorem baseDataOf_take (sel : List String) (vals : List ℚ) :
    baseDataOf sel (vals.take sel.length) = baseDataOf sel vals := by
  rw [baseDataOf, baseDataOf, zip_take]

theorem extract_go (lbl : String) (fullVals : List ℚ) :
    ∀ (sel : List String) (k : Nat) (bd : BaseData),
      k + sel.length ≤ fullVals.length →
      (List.enumFrom k sel).foldl (fun bd p =>
          if 1 + p.1 < (Cell.str lbl :: fullVals.map Cell.num).length then
            match (Cell.str lbl :: fullVals.map Cell.num).getD (1 + p.1)
                (Cell.num 0) with
            | Cell.num v => extractStep bd p.2 v
            | Cell.str _ => bd
          else bd) bd
        = (sel.zip (fullVals.drop k)).foldl
            (fun bd p => extractStep bd p.1 p.2) bd := by
  intro sel
  induction sel with
  | nil => intro k bd _; rfl
  | cons m ms ih =>
    intro k bd hk
    have hkL : k < fullVals.length := by
      simp only [List.length_cons] at hk
      omega
    rw [List.enumFrom_cons, List.foldl_cons,
      List.drop_eq_getElem_cons hkL, List.zip_cons_cons, List.foldl_cons]
    have hcond : 1 + k < (Cell.str lbl :: fullVals.map Cell.num).length := by
      simp only [List.length_cons, List.length_map]
      omega
    rw [if_pos hcond]
    have hget : (Cell.str lbl :: fullVals.map Cell.num).getD (1 + k)
        (Cell.num 0) = Cell.num fullVals[k] := by
      rw [show 1 + k = k + 1 by omega, List.getD_cons_succ,
        List.getD_eq_getElem?_getD, List.getElem?_map,
        List.getElem?_eq_getElem hkL]
      rfl
    rw [hget]
    exact ih (k + 1) (extractStep bd m fullVals[k]) (by
      simp only [List.length_cons] at hk
      omega)

theorem extract_eq_baseDataOf (lbl : String) (selected : List String)
    (fullVals : List ℚ) (report : Report)
    (hattr : report.selected_attributes = [])
    (hlen : selected.length ≤ fullVals.length) :
    extract_base_data_from_row (Cell.str lbl :: fullVals.map Cell.num)
        selected report = baseDataOf selected fullVals := by
  have h := extract_go lbl fullVals selected 0
    { cost := 0, clicks := 0, visits := 0, revenue := 0, goal := 0 }
    (by omega)
  simp only [List.drop_zero] at h
  rw [show List.enumFrom 0 selected = selected.enum from rfl] at h
  simp only [extract_base_data_from_row, hattr, List.length_nil,
    Nat.add_zero, baseDataOf]
  exact h

theorem set_cons_append : ∀ (pre : List Cell) (x : Cell) (rest : List Cell)
    (v : Cell), (pre ++ x :: rest).set pre.length v = pre ++ v :: rest := by
  intro pre
  induction pre with
  | nil => intro x rest v; rfl
  | cons p ps ih =>
    intro x rest v
    simp only [List.cons_append, List.length_cons, List.set_cons_succ,
      ih]

theorem replace_go : ∀ (cal : List ℚ) (k : Nat) (pre mid post : List Cell)
    (s : Nat), s + k = pre.length → mid.length = cal.length →
    (List.enumFrom k cal).foldl (fun t p =>
        if s + p.1 < t.length then t.set (s + p.1) (Cell.num (round2 p.2))
        else t) (pre ++ (mid ++ post))
      = pre ++ (cal.map (fun q => Cell.num (round2 q)) ++ post) := by
  intro cal
  induction cal with
  | nil =>
    intro k pre mid post s _ hm
    have : mid = [] := List.eq_nil_of_length_eq_zero (by simpa using hm)
    subst this
    rfl
  | cons c cs ih =>
    intro k pre mid post s hs hm
    cases mid with
    | nil => simp at hm
    | cons m0 ms =>
      rw [List.enumFrom_cons, List.foldl_cons]
      dsimp only
      rw [if_pos (by
        simp only [List.length_append, List.length_cons]
        omega)]
      rw [hs, List.cons_append, set_cons_append]
      rw [List.append_cons pre (Cell.num (round2 c)) (ms ++ post)]
      rw [ih (k + 1) (pre ++ [Cell.num (round2 c)]) ms post s
        (by simp only [List.length_append, List.length_singleton]; omega)
        (by simpa using hm)]
      rw [← List.append_cons]
      rfl

theorem calc_from_base_length (bd : BaseData) (report : Report) :
    (calculate_metrics_from_base_data bd report).length
      = report.selected_metrics.length := by
  rw [calculate_metrics_from_base_data]
  split
  · rename_i h
    simp [h]
  · simp

/-- The recompute-and-replace block on an attribute-free summed row:
metric and additional columns keep their sums; the derived segment is
replaced by the metrics recomputed from the base aggregates extracted
from the summed metric columns. -/
theorem paidRecompute_shape (selected : List String) (report : Report)
    (fullSums : List ℚ)
    (hattr : report.selected_attributes = [])
    (hS : selected ≠ [])
    (hlen : fullSums.length = selected.length
      + report.selected_metrics.length + (additionalForRow report).length) :
    paidRecompute (numRow "  Яндекс.Директ" fullSums) selected report
      = Cell.str "  Яндекс.Директ" ::
          ((fullSums.take selected.length).map Cell.num
            ++ ((calculate_metrics_from_base_data
                  (baseDataOf selected (fullSums.take selected.length))
                  report).map (fun q => Cell.num (round2 q))
              ++ (fullSums.drop (selected.length
                  + report.selected_metrics.length)).map Cell.num)) := by
  by_cases hd : report.selected_metrics = []
  · rw [paidRecompute, if_neg (by simp [hd])]
    rw [show calculate_metrics_from_base_data
        (baseDataOf selected (fullSums.take selected.length)) report = []
      from by rw [calculate_metrics_from_base_data, if_pos hd]]
    simp only [hd, List.length_nil, Nat.add_zero, List.map_nil,
      List.nil_append, numRow]
    rw [← List.map_append, List.take_append_drop]
  · have hD : 0 < report.selected_metrics.length := List.length_pos.mpr hd
    have hSpos : 0 < selected.length := List.length_pos.mpr hS
    rw [numRow, paidRecompute]
    rw [if_pos ⟨hd, by
      simp only [List.length_cons, List.length_map]
      omega⟩]
    rw [extract_eq_baseDataOf "  Яндекс.Директ" selected fullSums report
      hattr (by omega)]
    rw [if_pos (by
      intro h
      have hl := calc_from_base_length (baseDataOf selected fullSums) report
      rw [h] at hl
      simp only [List.length_nil] at hl
      omega)]
    rw [hattr]
    simp only [List.length_nil, Nat.add_zero]
    have hdecomp : Cell.str "  Яндекс.Директ" :: fullSums.map Cell.num
        = (Cell.str "  Яндекс.Директ"
            :: (fullSums.take selected.length).map Cell.num)
          ++ ((((fullSums.drop selected.length).take
                report.selected_metrics.length).map Cell.num)
            ++ (((fullSums.drop selected.length).drop
                report.selected_metrics.length).map Cell.num)) := by
      rw [List.cons_append]
      congr 1
      rw [← List.map_append, ← List.map_append, List.take_append_drop,
        List.take_append_drop]
    rw [hdecomp]
    rw [show (calculate_metrics_from_base_data
        (baseDataOf selected fullSums) report).enum
      = List.enumFrom 0 (calculate_metrics_from_base_data
        (baseDataOf selected fullSums) report) from rfl]
    rw [replace_go (calculate_metrics_from_base_data
        (baseDataOf selected fullSums) report) 0
      (Cell.str "  Яндекс.Директ"
        :: (fullSums.take selected.length).map Cell.num)
      (((fullSums.drop selected.length).take
        report.selected_metrics.length).map Cell.num)
      (((fullSums.drop selected.length).drop
        report.selected_metrics.length).map Cell.num)
      (1 + selected.length)
      (by
        simp only [Nat.add_zero, List.length_cons, List.length_map,
          List.length_take]
        omega)
      (by
        rw [calc_from_base_length]
        simp only [List.length_map, List.length_take, List.length_drop]
        omega)]
    rw [List.cons_append, baseDataOf_take, List.drop_drop]

/-- C8 (amended): for every successful paid-strategy generation with
non-empty main-level data and *no selected attributes*, the report contains
exactly one aggregate row: its label, then the summed metric columns, then
the user-selected derived metrics recomputed (rounded to 2 decimals) from
the base aggregates extracted from those summed columns — not the sums of
the per-row derived values — then the summed additional-metric columns.
With selected attributes the recompute start index
`1 + len(selected_metrics) + len(selected_attributes)` overshoots the
derived segment of the actual row layout, so the summed per-row derived
values survive in the aggregate row. -/
theorem paid_aggregate_recompute (report : Report)
    (cs : List (Option String)) (pd : MResponse) (selected : List String)
    (hsel : selected = build_selected_metrics PAID_METRICS
      (get_goal_metrics report.goals "paid").1
      report.selected_attributes PAID_ATTRIBUTES_MAPPING)
    (hlogin : cs.filterMap id ≠ [])
    (hne : pd.data ≠ [])
    (hattr : report.selected_attributes = [])
    (hS : selected ≠ [])
    (hno : ∀ m ∈ selected, m ∉ avalues cfgPaid.attributes_mapping)
    (hlen : ∀ it ∈ pd.data, it.metrics.length = selected.length) :
    paidGenerateReport report (some cs) (some pd)
      = some
        { headers := build_main_headers cfgPaid selected
            (get_goal_metrics report.goals "paid").2 report,
          rows := [Cell.str "  Яндекс.Директ" ::
            (((vecSum (pd.data.map (paidRowVals selected report))).take
                selected.length).map Cell.num
              ++ ((calculate_metrics_from_base_data
                    (baseDataOf selected
                      ((vecSum (pd.data.map
                        (paidRowVals selected report))).take
                        selected.length))
                    report).map (fun q => Cell.num (round2 q))
                ++ ((vecSum (pd.data.map (paidRowVals selected report))).drop
                    (selected.length + report.selected_metrics.length)).map
                    Cell.num))] } := by
  have hnd : selected.Nodup := by
    rw [hsel, build_selected_metrics, dedup_keep_order]
    exact dko_foldl_nodup _ [] List.nodup_nil
  have hlenSum : (vecSum (pd.data.map (paidRowVals selected report))).length
      = selected.length + report.selected_metrics.length
        + (additionalForRow report).length :=
    vecSum_length _ _ (by simpa using hne)
      (by
        intro v hv
        obtain ⟨it, hit, rfl⟩ := List.mem_map.mp hv
        exact paidRowVals_length selected report it hS (hlen it hit))
  have hcoll : paidCollapse pd.data selected report
      = some [Cell.str "  Яндекс.Директ" ::
        (((vecSum (pd.data.map (paidRowVals selected report))).take
            selected.length).map Cell.num
          ++ ((calculate_metrics_from_base_data
                (baseDataOf selected
                  ((vecSum (pd.data.map (paidRowVals selected report))).take
                    selected.length))
                report).map (fun q => Cell.num (round2 q))
            ++ ((vecSum (pd.data.map (paidRowVals selected report))).drop
                (selected.length + report.selected_metrics.length)).map
                Cell.num))] := by
    simp only [paidCollapse]
    rw [List.map_congr_left (fun it hit =>
      build_data_row_paid_vals report selected it hattr hnd hno
        (hlen it hit))]
    rw [paidTotalRow_numRow pd.data (paidRowVals selected report)
      (selected.length + report.selected_metrics.length
        + (additionalForRow report).length)
      hne
      (fun it hit => paidRowVals_length selected report it hS (hlen it hit))]
    dsimp only
    rw [if_pos (by simp [numRow])]
    rw [paidRecompute_shape selected report _ hattr hS hlenSum]
  simp only [paidGenerateReport]
  rw [if_neg hlogin]
  rw [show cfgPaid.traffic_type = "paid" from rfl]
  rw [← hsel]
  rw [if_neg hne]
  rw [hcoll]

theorem paid_aggregate_recompute_witness :
    rPaidPlain.selected_attributes = [] ∧
    paidGenerateReport rPaidPlain (some [some "x"])
        (some ⟨paidItemsPlain⟩)
      = some
        { headers := build_main_headers cfgPaid selPaidPlain
            (get_goal_metrics rPaidPlain.goals "paid").2 rPaidPlain,
          rows := [Cell.str "  Яндекс.Директ" ::
            (((vecSum (paidItemsPlain.map
                (paidRowVals selPaidPlain rPaidPlain))).take
                selPaidPlain.length).map Cell.num
              ++ ((calculate_metrics_from_base_data
                    (baseDataOf selPaidPlain
                      ((vecSum (paidItemsPlain.map
                        (paidRowVals selPaidPlain rPaidPlain))).take
                        selPaidPlain.length))
                    rPaidPlain).map (fun q => Cell.num (round2 q))
                ++ ((vecSum (paidItemsPlain.map
                    (paidRowVals selPaidPlain rPaidPlain))).drop
                    (selPaidPlain.length
                      + rPaidPlain.selected_metrics.length)).map
                    Cell.num))] } :=
  ⟨rfl,
    paid_aggregate_recompute rPaidPlain [some "x"] ⟨paidItemsPlain⟩
      selPaidPlain (by decide) (by decide) (by decide) rfl (by decide)
      (by decide) (by decide)⟩

/-- C8 (counterexample to the unrestricted claim): with the `clicks`
attribute selected, the per-row rows are `[P1, 10, 100, 0, 10]` and
`[P2, 10, 300, 0, 30]` (last cell = per-row CPC); the aggregate row keeps
the *summed* CPC 40 instead of the recomputed `cost/clicks = 400/20 = 20`. -/
theorem paid_aggregate_counterexample :
    ((paidGenerateReport rPaidAttr (some [some "x"])
        (some ⟨paidItems⟩)).getD ⟨[], []⟩).rows
      = [[Cell.str "  Яндекс.Директ", Cell.num 20, Cell.num 400, Cell.num 0,
          Cell.num 40]]
    ∧ calculate_cpc 400 20 = 20
    ∧ (Cell.num (40 : ℚ) ≠ Cell.num (20 : ℚ)) := by
  refine ⟨?_, by norm_num [calculate_cpc, round2, pyRoundInt, pyTruncInt],
    by decide⟩
  have hsel : build_selected_metrics PAID_METRICS
      (get_goal_metrics rPaidAttr.goals "paid").1
      rPaidAttr.selected_attributes PAID_ATTRIBUTES_MAPPING = selPaidAttr := by
    decide
  have hrow1 : build_data_row cfgPaid "P1" [100, 0, 10] selPaidAttr rPaidAttr
      = [Cell.str "P1", Cell.num 10, Cell.num 100, Cell.num 0,
         Cell.num 10] := by
    norm_num [build_data_row, cfgPaid, rPaidAttr, selPaidAttr, alookup,
      avalues, additionalForRow, additionalSplit,
      calculate_user_selected_metrics, goalAchievedFor, get_metric_value,
      List.enum, List.enumFrom, dictIndex, dictIndexFrom, rowValueAt,
      calculate_metrics, getattrOr0, calculate_cpc, round2, pyRoundInt,
      pyTruncInt, PAID_ATTRIBUTES_MAPPING, PAID_METRICS,
      (by decide : metricTypeMatches "cost" "ym:ad:RUBConvertedAdCost"
        = true),
      (by decide : metricTypeMatches "cost"
        "ym:ad:ecommerceRUBConvertedRevenue" = false),
      (by decide : metricTypeMatches "cost" "ym:ad:clicks" = false),
      (by decide : metricTypeMatches "clicks" "ym:ad:RUBConvertedAdCost"
        = false),
      (by decide : metricTypeMatches "clicks"
        "ym:ad:ecommerceRUBConvertedRevenue" = false),
      (by decide : metricTypeMatches "clicks" "ym:ad:clicks" = true),
      (by decide : metricTypeMatches "visits" "ym:ad:RUBConvertedAdCost"
        = false),
      (by decide : metricTypeMatches "visits"
        "ym:ad:ecommerceRUBConvertedRevenue" = false),
      (by decide : metricTypeMatches "visits" "ym:ad:clicks" = false),
      (by decide : metricTypeMatches "revenue" "ym:ad:RUBConvertedAdCost"
        = false),
      (by decide : metricTypeMatches "revenue"
        "ym:ad:ecommerceRUBConvertedRevenue" = true),
      (by decide : metricTypeMatches "revenue" "ym:ad:clicks" = false),
      (by decide : metricTypeMatches "goal" "ym:ad:RUBConvertedAdCost"
        = false),
      (by decide : metricTypeMatches "goal"
        "ym:ad:ecommerceRUBConvertedRevenue" = false),
      (by decide : metricTypeMatches "goal" "ym:ad:clicks" = false)]
    simp +decide
  have hrow2 : build_data_row cfgPaid "P2" [300, 0, 10] selPaidAttr rPaidAttr
      = [Cell.str "P2", Cell.num 10, Cell.num 300, Cell.num 0,
         Cell.num 30] := by
    norm_num [build_data_row, cfgPaid, rPaidAttr, selPaidAttr, alookup,
      avalues, additionalForRow, additionalSplit,
      calculate_user_selected_metrics, goalAchievedFor, get_metric_value,
      List.enum, List.enumFrom, dictIndex, dictIndexFrom, rowValueAt,
      calculate_metrics, getattrOr0, calculate_cpc, round2, pyRoundInt,
      pyTruncInt, PAID_ATTRIBUTES_MAPPING, PAID_METRICS,
      (by decide : metricTypeMatches "cost" "ym:ad:RUBConvertedAdCost"
        = true),
      (by decide : metricTypeMatches "cost"
        "ym:ad:ecommerceRUBConvertedRevenue" = false),
      (by decide : metricTypeMatches "cost" "ym:ad:clicks" = false),
      (by decide : metricTypeMatches "clicks" "ym:ad:RUBConvertedAdCost"
        = false),
      (by decide : metricTypeMatches "clicks"
        "ym:ad:ecommerceRUBConvertedRevenue" = false),
      (by decide : metricTypeMatches "clicks" "ym:ad:clicks" = true),
      (by decide : metricTypeMatches "visits" "ym:ad:RUBConvertedAdCost"
        = false),
      (by decide : metricTypeMatches "visits"
        "ym:ad:ecommerceRUBConvertedRevenue" = false),
      (by decide : metricTypeMatches "visits" "ym:ad:clicks" = false),
      (by decide : metricTypeMatches "revenue" "ym:ad:RUBConvertedAdCost"
        = false),
      (by decide : metricTypeMatches "revenue"
        "ym:ad:ecommerceRUBConvertedRevenue" = true),
      (by decide : metricTypeMatches "revenue" "ym:ad:clicks" = false),
      (by decide : metricTypeMatches "goal" "ym:ad:RUBConvertedAdCost"
        = false),
      (by decide : metricTypeMatches "goal"
        "ym:ad:ecommerceRUBConvertedRevenue" = false),
      (by decide : metricTypeMatches "goal" "ym:ad:clicks" = false)]
    simp +decide
  have htot : paidTotalRow
      [[Cell.str "P1", Cell.num 10, Cell.num 100, Cell.num 0, Cell.num 10],
       [Cell.str "P2", Cell.num 10, Cell.num 300, Cell.num 0, Cell.num 30]]
      = some (some [Cell.str "  Яндекс.Директ", Cell.num 20, Cell.num 400,
          Cell.num 0, Cell.num 40]) := by
    norm_num [paidTotalRow, paidTotalRowGo, initTotalRow, addRowInto]
  have hrec : paidRecompute
      [Cell.str "  Яндекс.Директ", Cell.num 20, Cell.num 400, Cell.num 0,
       Cell.num 40] selPaidAttr rPaidAttr
      = [Cell.str "  Яндекс.Директ", Cell.num 20, Cell.num 400, Cell.num 0,
         Cell.num 40] := by
    have e1 : ∀ (bd : BaseData) (v : ℚ),
        extractStep bd "ym:ad:RUBConvertedAdCost" v
          = { bd with cost := bd.cost + v } := by
      intro bd v
      simp [extractStep,
        (by decide : (strContainsLower "ym:ad:RUBConvertedAdCost" "cost"
          || strContains "ym:ad:RUBConvertedAdCost" "RUBConvertedAdCost")
          = true)]
    have e2 : ∀ (bd : BaseData) (v : ℚ),
        extractStep bd "ym:ad:ecommerceRUBConvertedRevenue" v
          = { bd with revenue := bd.revenue + v } := by
      intro bd v
      simp [extractStep,
        (by decide :
          (strContainsLower "ym:ad:ecommerceRUBConvertedRevenue" "cost"
            || strContains "ym:ad:ecommerceRUBConvertedRevenue"
              "RUBConvertedAdCost") = false),
        (by decide : strContainsLower "ym:ad:ecommerceRUBConvertedRevenue"
          "clicks" = false),
        (by decide : strContainsLower "ym:ad:ecommerceRUBConvertedRevenue"
          "visits" = false),
        (by decide :
          (strContainsLower "ym:ad:ecommerceRUBConvertedRevenue" "revenue"
            || strContains "ym:ad:ecommerceRUBConvertedRevenue"
              "ecommerceRUBConvertedRevenue") = true)]
    have e3 : ∀ (bd : BaseData) (v : ℚ),
        extractStep bd "ym:ad:clicks" v
          = { bd with clicks := bd.clicks + v } := by
      intro bd v
      simp [extractStep,
        (by decide : (strContainsLower "ym:ad:clicks" "cost"
          || strContains "ym:ad:clicks" "RUBConvertedAdCost") = false),
        (by decide : strContainsLower "ym:ad:clicks" "clicks" = true)]
    norm_num [paidRecompute, rPaidAttr, selPaidAttr,
      extract_base_data_from_row, List.enum, List.enumFrom, e1, e2, e3,
      calculate_metrics_from_base_data, calculate_metrics, getattrOr0,
      calculate_cpc, round2, pyRoundInt, pyTruncInt]
  norm_num [paidGenerateReport, hsel, paidCollapse, paidItems,
    hrow1, hrow2, htot, hrec, (show cfgPaid.traffic_type = "paid" from rfl)]
  simp +decide

end Elixa
